import Mathlib

/-! # Verification of the rust-chrono-utils W3C datetime parser and formatter

A shallow embedding of the parser helpers (src/parser/helper.rs), the error model
(src/parser/error.rs), the grammar driver (src/parser/parse_w3c_datetime.rs) and the
formatter (src/formatter/format_w3c.rs).

The input string is modelled as a `List Char` (the Rust code materializes the input as
a vector of characters).  The Rust code threads a mutable cursor (`position: &mut usize`)
through every scanner; here each scanner returns its result together with the final
cursor value, so the cursor after a failed scan stays observable.

The external calendar collaborator (the chrono crate: `NaiveDate`, `NaiveTime`,
`NaiveDateTime` arithmetic and the strftime rendering used by the formatter) is not part
of this repository's sources; those parts are modelled from the specification and
marked as such in their doc comments.
-/

/-- Error kind of parsing (src/parser/error.rs, `ParseErrorKind`). -/
inductive ParseErrorKind where
  | InvalidYear
  | InvalidMonth
  | InvalidDay
  | InvalidHour
  | InvalidMinute
  | InvalidSeconds
  | InvalidNanoseconds
  | InvalidFormat
  | InvalidToken
  | InvalidLowValue
  | InvalidHighValue
  | InvalidDate
  | InvalidTime
  | StringNotEnded
deriving DecidableEq, Repr

/-- A parse error (src/parser/error.rs, `ParseError`): a kind plus a half-open span
`[position_begin, position_end)` of character offsets. -/
structure ParseError where
  error_kind : ParseErrorKind
  position_begin : Nat
  position_end : Nat
deriving DecidableEq, Repr

/-- `ParseError::invalid` (src/parser/error.rs). -/
def ParseError.invalid (error_kind : ParseErrorKind) (position : Nat) (length : Nat) :
    ParseError :=
  { error_kind := error_kind, position_begin := position, position_end := position + length }

/-- `ParseError::invalid_format` (src/parser/error.rs). -/
def ParseError.invalid_format (position : Nat) (length : Nat) : ParseError :=
  { error_kind := ParseErrorKind.InvalidFormat, position_begin := position,
    position_end := position + length }

/-- `ParseError::invalid_token` (src/parser/error.rs). -/
def ParseError.invalid_token (position : Nat) (length : Nat) : ParseError :=
  { error_kind := ParseErrorKind.InvalidToken, position_begin := position,
    position_end := position + length }

/-- `ParseError::invalid_low_value` (src/parser/error.rs). -/
def ParseError.invalid_low_value (position : Nat) (length : Nat) : ParseError :=
  { error_kind := ParseErrorKind.InvalidLowValue, position_begin := position,
    position_end := position + length }

/-- `ParseError::invalid_high_value` (src/parser/error.rs). -/
def ParseError.invalid_high_value (position : Nat) (length : Nat) : ParseError :=
  { error_kind := ParseErrorKind.InvalidHighValue, position_begin := position,
    position_end := position + length }

/-- `ParseResult<T>` (src/parser/error.rs): Rust's `Result<T, ParseError>`. -/
inductive ParseResult (α : Type) where
  | ok (value : α)
  | error (e : ParseError)
deriving DecidableEq, Repr

/-- Decimal value of an ASCII digit character. -/
def digitVal (c : Char) : Nat := c.toNat - 48

/-- Numeric value of a most-significant-first digit string. -/
def digitsVal (l : List Char) : Nat := l.foldl (fun a c => a * 10 + digitVal c) 0

/-- Model of Rust `str::parse::<u32>` (the standard library integer parser used by
helper.rs): an optional leading '+' sign followed by one or more decimal digits, with
values past `u32::MAX` rejected. -/
def rustParseU32 (l : List Char) : Option Nat :=
  let body := if l.head? = some '+' then l.tail else l
  if body ≠ [] ∧ (∀ c ∈ body, c.isDigit) ∧ digitsVal body ≤ 4294967295 then
    some (digitsVal body)
  else none

/-- Model of Rust `str::parse::<i32>`: an optional leading '+' or '-' sign followed by
one or more decimal digits, with values outside the `i32` range rejected. -/
def rustParseI32 (l : List Char) : Option Int :=
  let body := if l.head? = some '+' ∨ l.head? = some '-' then l.tail else l
  if body ≠ [] ∧ (∀ c ∈ body, c.isDigit) ∧
      (if l.head? = some '-' then digitsVal body ≤ 2147483648
       else digitsVal body ≤ 2147483647) then
    some (if l.head? = some '-' then -(digitsVal body : Int) else (digitsVal body : Int))
  else none

/-- `get_text` (src/parser/helper.rs): the slice of `s` from `b` (inclusive) to
`e` (exclusive). -/
def get_text (s : List Char) (b e : Nat) : List Char := (s.drop b).take (e - b)

/-- `parse_u32` (src/parser/helper.rs lines 20-29): scan a fixed-width unsigned
integer; advance the cursor by `length` on success, otherwise report `error_kind`
over the span of width `length` at the pre-scan cursor. -/
def parse_u32 (s : List Char) (position : Nat) (length : Nat) (error_kind : ParseErrorKind) :
    ParseResult Nat × Nat :=
  if s.length ≥ position + length then
    match rustParseU32 (get_text s position (position + length)) with
    | some value => (ParseResult.ok value, position + length)
    | none => (ParseResult.error (ParseError.invalid error_kind position length), position)
  else
    (ParseResult.error (ParseError.invalid error_kind position length), position)

/-- `parse_i32` (src/parser/helper.rs lines 10-19). -/
def parse_i32 (s : List Char) (position : Nat) (length : Nat) (error_kind : ParseErrorKind) :
    ParseResult Int × Nat :=
  if s.length ≥ position + length then
    match rustParseI32 (get_text s position (position + length)) with
    | some value => (ParseResult.ok value, position + length)
    | none => (ParseResult.error (ParseError.invalid error_kind position length), position)
  else
    (ParseResult.error (ParseError.invalid error_kind position length), position)

/-- `parse_full_year` (src/parser/helper.rs lines 30-32). -/
def parse_full_year (s : List Char) (position : Nat) : ParseResult Int × Nat :=
  parse_i32 s position 4 ParseErrorKind.InvalidYear

/-- `validate_range` (src/parser/helper.rs lines 33-43): range-check an already
scanned value; note that at every call site the `position` argument is the cursor
value *after* the scan. -/
def validate_range (result : ParseResult Nat) (lo hi : Nat) (position : Nat) (length : Nat) :
    ParseResult Nat :=
  match result with
  | ParseResult.ok value =>
    if value < lo then ParseResult.error (ParseError.invalid_low_value position length)
    else if value > hi then ParseResult.error (ParseError.invalid_high_value position length)
    else ParseResult.ok value
  | ParseResult.error e => ParseResult.error e

/-- `parse_month_number` (src/parser/helper.rs lines 44-47). -/
def parse_month_number (s : List Char) (position : Nat) : ParseResult Nat × Nat :=
  let r := parse_u32 s position 2 ParseErrorKind.InvalidMonth
  (validate_range r.1 1 12 r.2 2, r.2)

/-- `parse_day_number` (src/parser/helper.rs lines 48-51). -/
def parse_day_number (s : List Char) (position : Nat) : ParseResult Nat × Nat :=
  let r := parse_u32 s position 2 ParseErrorKind.InvalidDay
  (validate_range r.1 1 31 r.2 2, r.2)

/-- `parse_hour_24` (src/parser/helper.rs lines 52-55). -/
def parse_hour_24 (s : List Char) (position : Nat) : ParseResult Nat × Nat :=
  let r := parse_u32 s position 2 ParseErrorKind.InvalidHour
  (validate_range r.1 0 23 r.2 2, r.2)

/-- `parse_hour_timezone` (src/parser/helper.rs lines 56-59). -/
def parse_hour_timezone (s : List Char) (position : Nat) : ParseResult Nat × Nat :=
  let r := parse_u32 s position 2 ParseErrorKind.InvalidHour
  (validate_range r.1 0 12 r.2 2, r.2)

/-- `parse_minute` (src/parser/helper.rs lines 60-64). -/
def parse_minute (s : List Char) (position : Nat) : ParseResult Nat × Nat :=
  let r := parse_u32 s position 2 ParseErrorKind.InvalidMinute
  (validate_range r.1 0 59 r.2 2, r.2)

/-- `parse_seconds` (src/parser/helper.rs lines 65-68). -/
def parse_seconds (s : List Char) (position : Nat) : ParseResult Nat × Nat :=
  let r := parse_u32 s position 2 ParseErrorKind.InvalidSeconds
  (validate_range r.1 0 59 r.2 2, r.2)

/-- `parse_nanosecond` (src/parser/helper.rs lines 69-90): consume the maximal run of
decimal digits at the cursor; a run of 1 to 9 digits of value `v` yields
`v * 10 ^ (9 - run length)` nanoseconds, anything else is an `InvalidNanoseconds` error
spanning the run.  (Accepted digits are ASCII, so the `len_utf8` accumulation in the
source adds exactly 1 per digit.) -/
def parse_nanosecond (s : List Char) (position : Nat) : ParseResult Nat × Nat :=
  let length := if position ≤ s.length then ((s.drop position).takeWhile Char.isDigit).length
    else 0
  if position ≤ s.length ∧ 0 < length ∧ length ≤ 9 then
    match rustParseU32 (get_text s position (position + length)) with
    | some value => (ParseResult.ok (value * 10 ^ (9 - length)), position + length)
    | none =>
      (ParseResult.error (ParseError.invalid ParseErrorKind.InvalidNanoseconds position length),
        position)
  else
    (ParseResult.error (ParseError.invalid ParseErrorKind.InvalidNanoseconds position length),
      position)

/-- `parse_token` (src/parser/helper.rs lines 110-120): require the literal `token` at
the cursor. -/
def parse_token (s : List Char) (position : Nat) (token : List Char) :
    ParseResult Unit × Nat :=
  let length := token.length
  if s.length ≥ position + length ∧ get_text s position (position + length) = token then
    (ParseResult.ok (), position + length)
  else
    (ParseResult.error (ParseError.invalid_token position length), position)

/-- `parse_token_or_end` (src/parser/helper.rs lines 121-133): require the literal
`token` (true) unless the input is already exhausted (false). -/
def parse_token_or_end (s : List Char) (position : Nat) (token : List Char) :
    ParseResult Bool × Nat :=
  let length := token.length
  if s.length ≥ position + length then
    if get_text s position (position + length) = token then
      (ParseResult.ok true, position + length)
    else
      (ParseResult.error (ParseError.invalid_token position length), position)
  else
    (ParseResult.ok false, position)

/-- `parse_is_token` (src/parser/helper.rs lines 134-146): probe for the literal
`token`; fails only when too little input remains to decide. -/
def parse_is_token (s : List Char) (position : Nat) (token : List Char) :
    ParseResult Bool × Nat :=
  let length := token.length
  if s.length ≥ position + length then
    if get_text s position (position + length) = token then
      (ParseResult.ok true, position + length)
    else
      (ParseResult.ok false, position)
  else
    (ParseResult.error (ParseError.invalid_token position length), position)

/-- `parse_end_of_string` (src/parser/helper.rs lines 147-152): succeed exactly when
the cursor sits at the end of the input (its `position` parameter is read-only). -/
def parse_end_of_string (s : List Char) (position : Nat) : ParseResult Unit :=
  if s.length = position then ParseResult.ok ()
  else ParseResult.error (ParseError.invalid ParseErrorKind.StringNotEnded position 0)

/-- Model of chrono `FixedOffset`: the offset of local time minus UTC, in seconds. -/
abbrev FixedOffset := Int

/-- Model of chrono `FixedOffset::east`: an offset `secs` seconds east of UTC. -/
def FixedOffset.east (secs : Int) : FixedOffset := secs

/-- Model of chrono `FixedOffset::west`: an offset `secs` seconds west of UTC. -/
def FixedOffset.west (secs : Int) : FixedOffset := -secs

/-- `parse_tzd` (src/parser/helper.rs lines 91-109): the zone designator, either the
literal "Z" (offset zero) or a sign, a zone hour, a ':' and a minute. -/
def parse_tzd (s : List Char) (position : Nat) : ParseResult FixedOffset × Nat :=
  match parse_is_token s position ['Z'] with
  | (ParseResult.error e, p) => (ParseResult.error e, p)
  | (ParseResult.ok true, p) => (ParseResult.ok (FixedOffset.east 0), p)
  | (ParseResult.ok false, p) =>
    match parse_is_token s p ['+'] with
    | (ParseResult.error e, p2) => (ParseResult.error e, p2)
    | (ParseResult.ok is_positive, p2) =>
      match parse_is_token s p2 ['-'] with
      | (ParseResult.error e, p3) => (ParseResult.error e, p3)
      | (ParseResult.ok is_negative, p3) =>
        if is_positive ∨ is_negative then
          match parse_hour_timezone s p3 with
          | (ParseResult.error e, p4) => (ParseResult.error e, p4)
          | (ParseResult.ok hour, p4) =>
            match parse_token s p4 [':'] with
            | (ParseResult.error e, p5) => (ParseResult.error e, p5)
            | (ParseResult.ok _, p5) =>
              match parse_minute s p5 with
              | (ParseResult.error e, p6) => (ParseResult.error e, p6)
              | (ParseResult.ok minute, p6) =>
                let offset : Int := ((hour * 60 * 60 + minute * 60 : Nat) : Int)
                if is_negative then (ParseResult.ok (FixedOffset.west offset), p6)
                else (ParseResult.ok (FixedOffset.east offset), p6)
        else (ParseResult.error (ParseError.invalid_token p3 1), p3)

/-- Modelled from the spec: the external calendar collaborator's leap-year rule
(Gregorian calendar, as implemented by chrono). -/
def isLeapYear (y : Int) : Bool := y % 4 = 0 ∧ (y % 100 ≠ 0 ∨ y % 400 = 0)

/-- Modelled from the spec: number of days of month `m` of year `y` in the Gregorian
calendar (0 for a month number outside 1..12). -/
def daysInMonth (y : Int) (m : Nat) : Nat :=
  match m with
  | 1 => 31
  | 2 => if isLeapYear y then 29 else 28
  | 3 => 31
  | 4 => 30
  | 5 => 31
  | 6 => 30
  | 7 => 31
  | 8 => 31
  | 9 => 30
  | 10 => 31
  | 11 => 30
  | 12 => 31
  | _ => 0

/-- Modelled from the spec: the external calendar collaborator's date value
(chrono `NaiveDate`), kept as plain year/month/day fields. -/
structure NaiveDate where
  year : Int
  month : Nat
  day : Nat
deriving DecidableEq, Repr

/-- Modelled from the spec: calendar validity of a date, including the representable
year range of the collaborator's date type. -/
def NaiveDate.valid (d : NaiveDate) : Prop :=
  -262144 ≤ d.year ∧ d.year ≤ 262143 ∧
    1 ≤ d.month ∧ d.month ≤ 12 ∧ 1 ≤ d.day ∧ d.day ≤ daysInMonth d.year d.month

instance (d : NaiveDate) : Decidable d.valid := by
  unfold NaiveDate.valid
  infer_instance

/-- Modelled from the spec: `NaiveDate::from_ymd_opt`, the collaborator's validating
date constructor. -/
def NaiveDate.from_ymd_opt (y : Int) (m d : Nat) : Option NaiveDate :=
  if NaiveDate.valid ⟨y, m, d⟩ then some ⟨y, m, d⟩ else none

/-- Modelled from the spec: the external collaborator's time-of-day value
(chrono `NaiveTime`). -/
structure NaiveTime where
  hour : Nat
  minute : Nat
  second : Nat
  nanosecond : Nat
deriving DecidableEq, Repr

/-- Modelled from the spec: `NaiveTime::from_hms_nano_opt`, the collaborator's
validating time constructor (the nanosecond field admits values up to
1,999,999,999 for leap-second representation). -/
def NaiveTime.from_hms_nano_opt (h m s nano : Nat) : Option NaiveTime :=
  if h ≤ 23 ∧ m ≤ 59 ∧ s ≤ 59 ∧ nano ≤ 1999999999 then some ⟨h, m, s, nano⟩ else none

/-- Modelled from the spec: the collaborator's combined date-and-time value
(chrono `NaiveDateTime`). -/
structure NaiveDateTime where
  date : NaiveDate
  time : NaiveTime
deriving DecidableEq, Repr

/-- Modelled from the spec: move a date one day forward, or give `none` past the
representable range. -/
def dateSucc (d : NaiveDate) : Option NaiveDate :=
  if d.day < daysInMonth d.year d.month then some ⟨d.year, d.month, d.day + 1⟩
  else if d.month < 12 then some ⟨d.year, d.month + 1, 1⟩
  else if d.year < 262143 then some ⟨d.year + 1, 1, 1⟩
  else none

/-- Modelled from the spec: move a date one day backward, or give `none` past the
representable range. -/
def datePred (d : NaiveDate) : Option NaiveDate :=
  if 1 < d.day then some ⟨d.year, d.month, d.day - 1⟩
  else if 1 < d.month then some ⟨d.year, d.month - 1, daysInMonth d.year (d.month - 1)⟩
  else if -262144 < d.year then some ⟨d.year - 1, 12, 31⟩
  else none

/-- Iterate `dateSucc`. -/
def dateSuccIter (d : NaiveDate) : Nat → Option NaiveDate
  | 0 => some d
  | n + 1 =>
    match dateSucc d with
    | some d2 => dateSuccIter d2 n
    | none => none

/-- Iterate `datePred`. -/
def datePredIter (d : NaiveDate) : Nat → Option NaiveDate
  | 0 => some d
  | n + 1 =>
    match datePred d with
    | some d2 => datePredIter d2 n
    | none => none

/-- Modelled from the spec: shift a date by a signed number of days. -/
def addDays (d : NaiveDate) (k : Int) : Option NaiveDate :=
  if 0 ≤ k then dateSuccIter d k.toNat else datePredIter d (-k).toNat

/-- Modelled from the spec: the collaborator's checked date-time arithmetic, shifting a
naive date-time by `delta` seconds.  The time of day is normalized into `[0, 86400)` and
the day difference is pushed into the date; `none` when the date leaves the
representable range.  The nanosecond field is untouched (only whole-second durations
occur in this system). -/
def addSecondsOpt (dt : NaiveDateTime) (delta : Int) : Option NaiveDateTime :=
  let t : Int := (dt.time.hour * 3600 + dt.time.minute * 60 + dt.time.second : Nat)
  let t2 := t + delta
  let shift := t2 / 86400
  let tod := (t2 % 86400).toNat
  match addDays dt.date shift with
  | some d2 =>
    some ⟨d2, ⟨tod / 3600, tod % 3600 / 60, tod % 60, dt.time.nanosecond⟩⟩
  | none => none

/-- Modelled from the spec: `NaiveDateTime::checked_sub` with a whole-second duration
(the driver subtracts the zone offset from the local clock reading to obtain UTC). -/
def NaiveDateTime.checked_sub (dt : NaiveDateTime) (secs : Int) : Option NaiveDateTime :=
  addSecondsOpt dt (-secs)

/-- Model of chrono `DateTime<FixedOffset>` as used here: the UTC naive date-time
produced by `DateTime::from_utc`, paired with the parsed offset. -/
structure W3CDateTime where
  datetime : NaiveDateTime
  offset : FixedOffset
deriving DecidableEq, Repr

/-- The fields accumulated by the grammar driver before calendar resolution
(the `year` .. `offset` locals of `parse_w3c_datetime`). -/
structure ScannedFields where
  year : Int
  month : Nat
  day : Nat
  hour : Nat
  minute : Nat
  seconds : Nat
  nanosecond : Nat
  offset : FixedOffset
deriving DecidableEq, Repr

/-- Adapter for the Rust `try!` propagation: a scanner's (result, cursor) pair as a
single result, the cursor being irrelevant after a propagated error (the driver
returns at once and its cursor is local). -/
def tryStep {α : Type} (x : ParseResult α × Nat) : ParseResult (α × Nat) :=
  match x with
  | (ParseResult.ok a, p) => ParseResult.ok (a, p)
  | (ParseResult.error e, _) => ParseResult.error e

/-- The scanning phase of `parse_w3c_datetime` (src/parser/parse_w3c_datetime.rs lines
44-68): the `try!` chain from the year scan up to and including the zone designator,
with the time-of-day fields defaulting to zero and the offset to UTC when the "T"
branch is not taken.  Returns the scanned fields and the final cursor. -/
def scan_w3c_fields (s : List Char) : ParseResult (ScannedFields × Nat) :=
  match tryStep (parse_full_year s 0) with
  | ParseResult.error e => ParseResult.error e
  | ParseResult.ok (year, p1) =>
    match tryStep (parse_token s p1 ['-']) with
    | ParseResult.error e => ParseResult.error e
    | ParseResult.ok (_, p2) =>
      match tryStep (parse_month_number s p2) with
      | ParseResult.error e => ParseResult.error e
      | ParseResult.ok (month, p3) =>
        match tryStep (parse_token s p3 ['-']) with
        | ParseResult.error e => ParseResult.error e
        | ParseResult.ok (_, p4) =>
          match tryStep (parse_day_number s p4) with
          | ParseResult.error e => ParseResult.error e
          | ParseResult.ok (day, p5) =>
            match tryStep (parse_token_or_end s p5 ['T']) with
            | ParseResult.error e => ParseResult.error e
            | ParseResult.ok (hasTime, p6) =>
              if hasTime then
                match tryStep (parse_hour_24 s p6) with
                | ParseResult.error e => ParseResult.error e
                | ParseResult.ok (hour, p7) =>
                  match tryStep (parse_token s p7 [':']) with
                  | ParseResult.error e => ParseResult.error e
                  | ParseResult.ok (_, p8) =>
                    match tryStep (parse_minute s p8) with
                    | ParseResult.error e => ParseResult.error e
                    | ParseResult.ok (minute, p9) =>
                      match tryStep (parse_is_token s p9 [':']) with
                      | ParseResult.error e => ParseResult.error e
                      | ParseResult.ok (hasSeconds, p10) =>
                        if hasSeconds then
                          match tryStep (parse_seconds s p10) with
                          | ParseResult.error e => ParseResult.error e
                          | ParseResult.ok (seconds, p11) =>
                            match tryStep (parse_is_token s p11 ['.']) with
                            | ParseResult.error e => ParseResult.error e
                            | ParseResult.ok (hasFraction, p12) =>
                              if hasFraction then
                                match tryStep (parse_nanosecond s p12) with
                                | ParseResult.error e => ParseResult.error e
                                | ParseResult.ok (nanosecond, p13) =>
                                  match tryStep (parse_tzd s p13) with
                                  | ParseResult.error e => ParseResult.error e
                                  | ParseResult.ok (offset, p14) =>
                                    ParseResult.ok
                                      (⟨year, month, day, hour, minute, seconds, nanosecond,
                                        offset⟩, p14)
                              else
                                match tryStep (parse_tzd s p12) with
                                | ParseResult.error e => ParseResult.error e
                                | ParseResult.ok (offset, p13) =>
                                  ParseResult.ok
                                    (⟨year, month, day, hour, minute, seconds, 0, offset⟩, p13)
                        else
                          match tryStep (parse_tzd s p10) with
                          | ParseResult.error e => ParseResult.error e
                          | ParseResult.ok (offset, p11) =>
                            ParseResult.ok (⟨year, month, day, hour, minute, 0, 0, offset⟩, p11)
              else
                ParseResult.ok (⟨year, month, day, 0, 0, 0, 0, FixedOffset.east 0⟩, p6)

/-- The calendar-resolution phase of `parse_w3c_datetime` (src/parser/parse_w3c_datetime.rs
lines 70-77): the nested `if let` chain handing the scanned fields to the external
collaborator; `none` when any step rejects. -/
def resolveFields (f : ScannedFields) : Option W3CDateTime :=
  match NaiveDate.from_ymd_opt f.year f.month f.day with
  | some date =>
    match NaiveTime.from_hms_nano_opt f.hour f.minute f.seconds f.nanosecond with
    | some time =>
      match NaiveDateTime.checked_sub ⟨date, time⟩ f.offset with
      | some ndt => some ⟨ndt, f.offset⟩
      | none => none
    | none => none
  | none => none

/-- `parse_w3c_datetime` (src/parser/parse_w3c_datetime.rs lines 20-79): run the scans,
require the end of the input, then resolve through the calendar collaborator; a
resolution failure becomes a single `InvalidFormat` error spanning the whole input. -/
def parse_w3c_datetime (s : List Char) : ParseResult W3CDateTime :=
  match scan_w3c_fields s with
  | ParseResult.error e => ParseResult.error e
  | ParseResult.ok (f, position) =>
    match parse_end_of_string s position with
    | ParseResult.error e => ParseResult.error e
    | ParseResult.ok _ =>
      match resolveFields f with
      | some dt => ParseResult.ok dt
      | none => ParseResult.error (ParseError.invalid_format 0 s.length)

/-- Decimal digit character for a value below 10. -/
def digitChar (d : Nat) : Char :=
  match d with
  | 0 => '0'
  | 1 => '1'
  | 2 => '2'
  | 3 => '3'
  | 4 => '4'
  | 5 => '5'
  | 6 => '6'
  | 7 => '7'
  | 8 => '8'
  | _ => '9'

/-- Zero-padded decimal rendering of `n` to exactly `w` digits (the `{:02}` style
padding of the formatter and of chrono's numeric strftime items). -/
def padNum (w : Nat) (n : Nat) : List Char :=
  match w with
  | 0 => []
  | w + 1 => padNum w (n / 10) ++ [digitChar (n % 10)]

/-- Modelled from the spec: chrono's `%Y` year rendering, a sign for negative years
and the magnitude zero-padded to four digits. -/
def formatYear (y : Int) : List Char :=
  if y < 0 then '-' :: padNum 4 (-y).toNat else padNum 4 y.toNat

/-- Modelled from the spec: chrono's `%FT%T` rendering of a naive date-time,
`YYYY-MM-DDTHH:MM:SS` with two-digit zero-padded fields. -/
def formatYMDHMS (dt : NaiveDateTime) : List Char :=
  formatYear dt.date.year ++ '-' :: padNum 2 dt.date.month ++ '-' :: padNum 2 dt.date.day ++
    'T' :: padNum 2 dt.time.hour ++ ':' :: padNum 2 dt.time.minute ++
    ':' :: padNum 2 dt.time.second

/-- Modelled from the spec: chrono's `%.f` fractional-second rendering for a nonzero
nanosecond value, a dot followed by the fraction in whole milli-, micro- or nanosecond
precision (3, 6 or 9 digits). -/
def fracFormat (nano : Nat) : List Char :=
  if nano % 1000000 = 0 then '.' :: padNum 3 (nano / 1000000)
  else if nano % 1000 = 0 then '.' :: padNum 6 (nano / 1000)
  else '.' :: padNum 9 nano

/-- `format_w3c` (src/formatter/format_w3c.rs): render the local reading of the
stored instant as `%FT%T`, append `%.f` when the nanosecond field is nonzero, then
either "Z" for offset zero or the signed two-digit hour and minute of the offset.
The local reading adds the offset back onto the stored UTC instant (chrono's
`DateTime::format` formats `self.local()`); the addition cannot leave the
representable range for any value this parser produces, and the unreachable fallback
keeps the function total. -/
def format_w3c (dt : W3CDateTime) : List Char :=
  let localTime := (addSecondsOpt dt.datetime dt.offset).getD dt.datetime
  let offset := dt.offset
  formatYMDHMS localTime ++
    (if localTime.time.nanosecond > 0 then fracFormat localTime.time.nanosecond else []) ++
    (if offset = 0 then ['Z']
     else
       (if 0 ≤ offset then ['+'] else ['-']) ++
         padNum 2 (offset.natAbs / 3600) ++ ':' :: padNum 2 (offset.natAbs % 3600 / 60))

/-! ## Canonical-form inputs (claim C9)

A canonical-form datetime string in the sense of the round-trip claim: zero-padded
fields, seconds present, fractional digits present only for a nonzero nanosecond
value, and either "Z" or a non-zero explicit signed HH:MM offset.  `CanonForm` holds
the rendered components; `renderCanon` produces the canonical text. -/

/-- Components of a canonical-form input: date and time-of-day fields, an optional
fractional run (digit count, value), and either the UTC designator (`none`) or a
signed hour/minute offset (`some (negative, hour, minute)`). -/
structure CanonForm where
  year : Nat
  month : Nat
  day : Nat
  hour : Nat
  minute : Nat
  second : Nat
  frac : Option (Nat × Nat)
  offset : Option (Bool × Nat × Nat)
deriving DecidableEq, Repr

/-- Render the fractional-second part of a canonical input. -/
def renderFrac (f : Option (Nat × Nat)) : List Char :=
  match f with
  | none => []
  | some (n, v) => '.' :: padNum n v

/-- Render the zone-designator part of a canonical input. -/
def renderOffset (o : Option (Bool × Nat × Nat)) : List Char :=
  match o with
  | none => ['Z']
  | some (neg, oh, om) => (if neg then '-' else '+') :: (padNum 2 oh ++ ':' :: padNum 2 om)

/-- The canonical text `YYYY-MM-DDTHH:MM:SS[.frac](Z | sHH:MM)` of a component tuple. -/
def renderCanon (c : CanonForm) : List Char :=
  padNum 4 c.year ++ '-' :: (padNum 2 c.month ++ '-' :: (padNum 2 c.day ++
    'T' :: (padNum 2 c.hour ++ ':' :: (padNum 2 c.minute ++ ':' :: (padNum 2 c.second ++
    (renderFrac c.frac ++ renderOffset c.offset))))))

/-- Range constraints on a fractional run as the round-trip claim states them:
1 to 9 digits with a nonzero value. -/
def fracOkClaim (f : Option (Nat × Nat)) : Bool :=
  match f with
  | none => true
  | some (n, v) => decide (1 ≤ n ∧ n ≤ 9 ∧ 0 < v ∧ v < 10 ^ n)

/-- Range constraints on an explicit offset: a representable zone hour and minute,
not both zero (the claim's "non-zero explicit signed HH:MM offset"). -/
def offsetOkClaim (o : Option (Bool × Nat × Nat)) : Bool :=
  match o with
  | none => true
  | some (_, oh, om) => decide (oh ≤ 12 ∧ om ≤ 59 ∧ ¬(oh = 0 ∧ om = 0))

/-- A canonical component tuple as constrained by claim C9's own wording. -/
def CanonForm.validClaim (c : CanonForm) : Prop :=
  c.year ≤ 9999 ∧ 1 ≤ c.month ∧ c.month ≤ 12 ∧ 1 ≤ c.day ∧ c.day ≤ 31 ∧
    c.hour ≤ 23 ∧ c.minute ≤ 59 ∧ c.second ≤ 59 ∧
    fracOkClaim c.frac = true ∧ offsetOkClaim c.offset = true

instance (c : CanonForm) : Decidable c.validClaim := by
  unfold CanonForm.validClaim
  infer_instance

/-- The extra constraint the formatting facility imposes on round-trippable fractions:
whole milli-, micro- or nanosecond precision, with the last digit group nonzero. -/
def fracOkAmended (f : Option (Nat × Nat)) : Bool :=
  match f with
  | none => true
  | some (n, v) => decide ((n = 3 ∨ n = 6 ∨ n = 9) ∧ (n ≠ 3 → v % 1000 ≠ 0))

/-- The amended canonical constraint: claim C9's constraints plus `fracOkAmended`. -/
def CanonForm.validAmended (c : CanonForm) : Prop :=
  c.validClaim ∧ fracOkAmended c.frac = true

instance (c : CanonForm) : Decidable c.validAmended := by
  unfold CanonForm.validAmended
  infer_instance

/-- A string is in canonical form (claim C9's reading) when it is the rendering of
some claim-valid component tuple. -/
def IsCanonicalClaim (s : List Char) : Prop :=
  ∃ c : CanonForm, c.validClaim ∧ s = renderCanon c

/-- A string is in amended canonical form when it is the rendering of some
amended-valid component tuple. -/
def IsCanonicalAmended (s : List Char) : Prop :=
  ∃ c : CanonForm, c.validAmended ∧ s = renderCanon c

/-- The nanosecond field a fractional run scans to: run value times `10 ^ (9 - run length)`. -/
def nanoOfCanon (f : Option (Nat × Nat)) : Nat :=
  match f with
  | none => 0
  | some (n, v) => v * 10 ^ (9 - n)

/-- The signed offset in seconds denoted by a canonical zone designator. -/
def offsetSecsOfCanon (o : Option (Bool × Nat × Nat)) : Int :=
  match o with
  | none => 0
  | some (neg, oh, om) =>
    if neg then -((oh * 3600 + om * 60 : Nat) : Int) else ((oh * 3600 + om * 60 : Nat) : Int)

/-- The scanned-field record a canonical input scans to. -/
def fieldsOfCanon (c : CanonForm) : ScannedFields :=
  ⟨(c.year : Int), c.month, c.day, c.hour, c.minute, c.second,
    nanoOfCanon c.frac, offsetSecsOfCanon c.offset⟩

/-! ## Arithmetic facts about digit strings -/

theorem digitChar_isDigit (d : Nat) : (digitChar d).isDigit = true := by
  unfold digitChar
  rcases d with _ | _ | _ | _ | _ | _ | _ | _ | _ | d <;> rfl

theorem digitVal_digitChar {d : Nat} (h : d < 10) : digitVal (digitChar d) = d := by
  unfold digitChar
  interval_cases d <;> decide

theorem digitVal_lt_ten {c : Char} (h : c.isDigit = true) : digitVal c < 10 := by
  simp only [Char.isDigit, Bool.and_eq_true, decide_eq_true_eq] at h
  obtain ⟨h1, h2⟩ := h
  have g1 : (48 : Nat) ≤ c.toNat := h1
  have g2 : c.toNat ≤ 57 := h2
  unfold digitVal
  omega

theorem padNum_length (w n : Nat) : (padNum w n).length = w := by
  induction w generalizing n with
  | zero => rfl
  | succ w ih => simp [padNum, ih]

theorem padNum_all_digits (w n : Nat) : ∀ c ∈ padNum w n, c.isDigit = true := by
  induction w generalizing n with
  | zero => simp [padNum]
  | succ w ih =>
    intro c hc
    simp only [padNum, List.mem_append, List.mem_singleton] at hc
    rcases hc with hc | hc
    · exact ih _ c hc
    · rw [hc]; exact digitChar_isDigit _

theorem digitsVal_append_singleton (l : List Char) (c : Char) :
    digitsVal (l ++ [c]) = digitsVal l * 10 + digitVal c := by
  simp [digitsVal, List.foldl_append]

theorem digitsVal_padNum {w n : Nat} (h : n < 10 ^ w) : digitsVal (padNum w n) = n := by
  induction w generalizing n with
  | zero =>
    simp only [pow_zero, Nat.lt_one_iff] at h
    simp [padNum, digitsVal, h]
  | succ w ih =>
    have hdiv : n / 10 < 10 ^ w := by
      rw [Nat.div_lt_iff_lt_mul (by norm_num)]
      calc n < 10 ^ (w + 1) := h
      _ = 10 ^ w * 10 := by ring
    rw [padNum, digitsVal_append_singleton, ih hdiv,
      digitVal_digitChar (Nat.mod_lt n (by norm_num))]
    omega

theorem digitsVal_lt (l : List Char) (h : ∀ c ∈ l, c.isDigit = true) :
    digitsVal l < 10 ^ l.length := by
  induction l using List.reverseRecOn with
  | nil => simp [digitsVal]
  | append_singleton l c ih =>
    rw [digitsVal_append_singleton]
    have hc : digitVal c < 10 := digitVal_lt_ten (h c (by simp))
    have hl : digitsVal l < 10 ^ l.length := ih (fun x hx => h x (by simp [hx]))
    simp only [List.length_append, List.length_singleton]
    calc digitsVal l * 10 + digitVal c < (digitsVal l + 1) * 10 := by omega
    _ ≤ 10 ^ l.length * 10 := Nat.mul_le_mul_right 10 hl
    _ = 10 ^ (l.length + 1) := by ring

theorem all_digits_head_ne {l : List Char} (h : ∀ c ∈ l, c.isDigit = true)
    {c0 : Char} (hc0 : c0.isDigit = false) : l.head? ≠ some c0 := by
  cases l with
  | nil => simp
  | cons c t =>
    simp only [List.head?_cons, ne_eq, Option.some.injEq]
    intro he
    have := h c (by simp)
    rw [he, hc0] at this
    exact Bool.false_ne_true this

/-- Rust's unsigned integer parser accepts a pure digit string and returns its value. -/
theorem rustParseU32_of_digits {l : List Char} (hne : l ≠ [])
    (hdig : ∀ c ∈ l, c.isDigit = true) (hlt : digitsVal l ≤ 4294967295) :
    rustParseU32 l = some (digitsVal l) := by
  unfold rustParseU32
  have hhead : l.head? ≠ some '+' := all_digits_head_ne hdig (by decide)
  rw [if_neg hhead]
  rw [if_pos ⟨hne, hdig, hlt⟩]

theorem rustParseU32_padNum {w n : Nat} (hw : 1 ≤ w) (hn : n < 10 ^ w)
    (h32 : n ≤ 4294967295) : rustParseU32 (padNum w n) = some n := by
  have hne : padNum w n ≠ [] := by
    have := padNum_length w n
    intro h
    rw [h] at this
    simp at this
    omega
  rw [rustParseU32_of_digits hne (padNum_all_digits w n)
    (by rw [digitsVal_padNum hn]; exact h32), digitsVal_padNum hn]

/-- Rust's signed integer parser accepts a pure digit string and returns its value. -/
theorem rustParseI32_padNum {w n : Nat} (hw : 1 ≤ w) (hn : n < 10 ^ w)
    (h32 : n ≤ 2147483647) : rustParseI32 (padNum w n) = some (n : Int) := by
  unfold rustParseI32
  have hplus : (padNum w n).head? ≠ some '+' :=
    all_digits_head_ne (padNum_all_digits w n) (by decide)
  have hminus : (padNum w n).head? ≠ some '-' :=
    all_digits_head_ne (padNum_all_digits w n) (by decide)
  have hne : padNum w n ≠ [] := by
    have := padNum_length w n
    intro h
    rw [h] at this
    simp at this
    omega
  have hcond : ¬((padNum w n).head? = some '+' ∨ (padNum w n).head? = some '-') := by
    simp [hplus, hminus]
  simp only [if_neg hcond, if_neg hminus]
  rw [if_pos ⟨hne, padNum_all_digits w n, by rw [digitsVal_padNum hn]; exact h32⟩]
  rw [digitsVal_padNum hn]

/-! ## Cursor and slice utilities -/

theorem drop_chain {s x rest : List Char} {pos w : Nat}
    (h : s.drop pos = x ++ rest) (hw : x.length = w) : s.drop (pos + w) = rest := by
  have h2 : (s.drop pos).drop w = s.drop (pos + w) := by rw [List.drop_drop]
  rw [← h2, h, ← hw, List.drop_left]

theorem length_ge_of_drop {s x rest : List Char} {pos : Nat}
    (hpos : pos ≤ s.length) (h : s.drop pos = x ++ rest) :
    s.length ≥ pos + x.length := by
  have := congrArg List.length h
  simp only [List.length_drop, List.length_append] at this
  omega

theorem pos_le_of_drop {s x rest : List Char} {pos : Nat}
    (hpos : pos ≤ s.length) (h : s.drop pos = x ++ rest) :
    pos + x.length ≤ s.length := length_ge_of_drop hpos h

theorem get_text_of_drop {s x rest : List Char} {pos w : Nat}
    (h : s.drop pos = x ++ rest) (hw : x.length = w) :
    get_text s pos (pos + w) = x := by
  unfold get_text
  rw [Nat.add_sub_cancel_left, h, ← hw, List.take_left]

/-! ## Scanner specifications on well-shaped input -/

theorem parse_u32_ok {s mid rest : List Char} {pos w v : Nat} {k : ParseErrorKind}
    (hpos : pos ≤ s.length) (hdrop : s.drop pos = mid ++ rest) (hw : mid.length = w)
    (hv : rustParseU32 mid = some v) :
    parse_u32 s pos w k = (ParseResult.ok v, pos + w) := by
  have hlen : s.length ≥ pos + w := by
    have h0 := length_ge_of_drop hpos hdrop
    rw [hw] at h0
    exact h0
  unfold parse_u32
  rw [if_pos hlen, get_text_of_drop hdrop hw, hv]

theorem parse_i32_ok {s mid rest : List Char} {pos w : Nat} {v : Int} {k : ParseErrorKind}
    (hpos : pos ≤ s.length) (hdrop : s.drop pos = mid ++ rest) (hw : mid.length = w)
    (hv : rustParseI32 mid = some v) :
    parse_i32 s pos w k = (ParseResult.ok v, pos + w) := by
  have hlen : s.length ≥ pos + w := by
    have h0 := length_ge_of_drop hpos hdrop
    rw [hw] at h0
    exact h0
  unfold parse_i32
  rw [if_pos hlen, get_text_of_drop hdrop hw, hv]

theorem parse_full_year_ok {s rest : List Char} {pos y : Nat}
    (hpos : pos ≤ s.length) (hdrop : s.drop pos = padNum 4 y ++ rest) (hy : y ≤ 9999) :
    parse_full_year s pos = (ParseResult.ok (y : Int), pos + 4) := by
  unfold parse_full_year
  exact parse_i32_ok hpos hdrop (padNum_length 4 y)
    (rustParseI32_padNum (by norm_num) (by norm_num; omega) (by omega))

theorem parse_token_ok {s tok rest : List Char} {pos : Nat}
    (hpos : pos ≤ s.length) (hdrop : s.drop pos = tok ++ rest) :
    parse_token s pos tok = (ParseResult.ok (), pos + tok.length) := by
  simp only [parse_token]
  rw [if_pos ⟨length_ge_of_drop hpos hdrop, get_text_of_drop hdrop rfl⟩]

theorem parse_token_or_end_yes {s tok rest : List Char} {pos : Nat}
    (hpos : pos ≤ s.length) (hdrop : s.drop pos = tok ++ rest) :
    parse_token_or_end s pos tok = (ParseResult.ok true, pos + tok.length) := by
  simp only [parse_token_or_end]
  rw [if_pos (length_ge_of_drop hpos hdrop), if_pos (get_text_of_drop hdrop rfl)]

theorem parse_is_token_yes {s tok rest : List Char} {pos : Nat}
    (hpos : pos ≤ s.length) (hdrop : s.drop pos = tok ++ rest) :
    parse_is_token s pos tok = (ParseResult.ok true, pos + tok.length) := by
  simp only [parse_is_token]
  rw [if_pos (length_ge_of_drop hpos hdrop), if_pos (get_text_of_drop hdrop rfl)]

theorem parse_is_token_no {s tok mid rest : List Char} {pos : Nat}
    (hpos : pos ≤ s.length) (hdrop : s.drop pos = mid ++ rest)
    (hlen : mid.length = tok.length) (hne : mid ≠ tok) :
    parse_is_token s pos tok = (ParseResult.ok false, pos) := by
  have hge : s.length ≥ pos + tok.length := by
    have h0 := length_ge_of_drop hpos hdrop
    rw [hlen] at h0
    exact h0
  simp only [parse_is_token]
  rw [if_pos hge, if_neg]
  rw [get_text_of_drop hdrop hlen]
  exact hne

theorem validate_range_ok {v lo hi pos len : Nat} (h1 : lo ≤ v) (h2 : v ≤ hi) :
    validate_range (ParseResult.ok v) lo hi pos len = ParseResult.ok v := by
  simp only [validate_range]
  rw [if_neg (by omega), if_neg (by omega)]

theorem parse_month_number_ok {s rest : List Char} {pos v : Nat}
    (hpos : pos ≤ s.length) (hdrop : s.drop pos = padNum 2 v ++ rest)
    (h1 : 1 ≤ v) (h2 : v ≤ 12) :
    parse_month_number s pos = (ParseResult.ok v, pos + 2) := by
  have hu := parse_u32_ok (k := ParseErrorKind.InvalidMonth) hpos hdrop (padNum_length 2 v)
    (rustParseU32_padNum (by norm_num) (by norm_num; omega) (by omega))
  simp only [parse_month_number, hu]
  simp [validate_range_ok h1 h2]

theorem parse_day_number_ok {s rest : List Char} {pos v : Nat}
    (hpos : pos ≤ s.length) (hdrop : s.drop pos = padNum 2 v ++ rest)
    (h1 : 1 ≤ v) (h2 : v ≤ 31) :
    parse_day_number s pos = (ParseResult.ok v, pos + 2) := by
  have hu := parse_u32_ok (k := ParseErrorKind.InvalidDay) hpos hdrop (padNum_length 2 v)
    (rustParseU32_padNum (by norm_num) (by norm_num; omega) (by omega))
  simp only [parse_day_number, hu]
  simp [validate_range_ok h1 h2]

theorem parse_hour_24_ok {s rest : List Char} {pos v : Nat}
    (hpos : pos ≤ s.length) (hdrop : s.drop pos = padNum 2 v ++ rest) (h2 : v ≤ 23) :
    parse_hour_24 s pos = (ParseResult.ok v, pos + 2) := by
  have hu := parse_u32_ok (k := ParseErrorKind.InvalidHour) hpos hdrop (padNum_length 2 v)
    (rustParseU32_padNum (by norm_num) (by norm_num; omega) (by omega))
  simp only [parse_hour_24, hu]
  simp [validate_range_ok (Nat.zero_le v) h2]

theorem parse_hour_timezone_ok {s rest : List Char} {pos v : Nat}
    (hpos : pos ≤ s.length) (hdrop : s.drop pos = padNum 2 v ++ rest) (h2 : v ≤ 12) :
    parse_hour_timezone s pos = (ParseResult.ok v, pos + 2) := by
  have hu := parse_u32_ok (k := ParseErrorKind.InvalidHour) hpos hdrop (padNum_length 2 v)
    (rustParseU32_padNum (by norm_num) (by norm_num; omega) (by omega))
  simp only [parse_hour_timezone, hu]
  simp [validate_range_ok (Nat.zero_le v) h2]

theorem parse_minute_ok {s rest : List Char} {pos v : Nat}
    (hpos : pos ≤ s.length) (hdrop : s.drop pos = padNum 2 v ++ rest) (h2 : v ≤ 59) :
    parse_minute s pos = (ParseResult.ok v, pos + 2) := by
  have hu := parse_u32_ok (k := ParseErrorKind.InvalidMinute) hpos hdrop (padNum_length 2 v)
    (rustParseU32_padNum (by norm_num) (by norm_num; omega) (by omega))
  simp only [parse_minute, hu]
  simp [validate_range_ok (Nat.zero_le v) h2]

theorem parse_seconds_ok {s rest : List Char} {pos v : Nat}
    (hpos : pos ≤ s.length) (hdrop : s.drop pos = padNum 2 v ++ rest) (h2 : v ≤ 59) :
    parse_seconds s pos = (ParseResult.ok v, pos + 2) := by
  have hu := parse_u32_ok (k := ParseErrorKind.InvalidSeconds) hpos hdrop (padNum_length 2 v)
    (rustParseU32_padNum (by norm_num) (by norm_num; omega) (by omega))
  simp only [parse_seconds, hu]
  simp [validate_range_ok (Nat.zero_le v) h2]

theorem takeWhile_append_all {p : Char → Bool} {l1 l2 : List Char}
    (h1 : ∀ c ∈ l1, p c = true) (h2 : ∀ c, l2.head? = some c → p c = false) :
    (l1 ++ l2).takeWhile p = l1 := by
  induction l1 with
  | nil =>
    simp only [List.nil_append]
    cases l2 with
    | nil => rfl
    | cons c t =>
      rw [List.takeWhile_cons_of_neg]
      rw [h2 c rfl]
      exact Bool.false_ne_true
  | cons c t ih =>
    simp only [List.cons_append]
    rw [List.takeWhile_cons_of_pos (h1 c (by simp))]
    rw [ih (fun x hx => h1 x (by simp [hx]))]

theorem pow_ten_le_pow_ten {a b : Nat} (h : a ≤ b) : (10 : Nat) ^ a ≤ 10 ^ b :=
  Nat.pow_le_pow_right (by norm_num) h

theorem parse_nanosecond_ok {s rest : List Char} {pos n v : Nat}
    (hpos : pos ≤ s.length) (hdrop : s.drop pos = padNum n v ++ rest)
    (hrest : ∀ c, rest.head? = some c → c.isDigit = false)
    (hn1 : 1 ≤ n) (hn9 : n ≤ 9) (hv : v < 10 ^ n) :
    parse_nanosecond s pos = (ParseResult.ok (v * 10 ^ (9 - n)), pos + n) := by
  have hrun : (s.drop pos).takeWhile Char.isDigit = padNum n v := by
    rw [hdrop]
    exact takeWhile_append_all (padNum_all_digits n v) hrest
  have hv32 : v ≤ 4294967295 := by
    have h9 : (10 : Nat) ^ n ≤ 10 ^ 9 := pow_ten_le_pow_ten hn9
    have : (10 : Nat) ^ 9 = 1000000000 := by norm_num
    omega
  simp only [parse_nanosecond, if_pos hpos, hrun, padNum_length]
  rw [if_pos ⟨hpos, hn1, hn9⟩, get_text_of_drop hdrop (padNum_length n v),
    rustParseU32_padNum hn1 hv hv32]

theorem parse_tzd_z {s rest : List Char} {pos : Nat}
    (hpos : pos ≤ s.length) (hdrop : s.drop pos = 'Z' :: rest) :
    parse_tzd s pos = (ParseResult.ok 0, pos + 1) := by
  have h1 : parse_is_token s pos ['Z'] = (ParseResult.ok true, pos + 1) :=
    parse_is_token_yes hpos hdrop
  simp only [parse_tzd, h1]
  rfl

theorem padNum_two (h : Nat) : padNum 2 h = [digitChar (h / 10 % 10), digitChar (h % 10)] := rfl

theorem parse_tzd_sign {s rest : List Char} {pos h m : Nat} (neg : Bool)
    (hpos : pos ≤ s.length)
    (hdrop : s.drop pos =
      (if neg then '-' else '+') :: (padNum 2 h ++ ':' :: (padNum 2 m ++ rest)))
    (hh : h ≤ 12) (hm : m ≤ 59) :
    parse_tzd s pos =
      (ParseResult.ok
        (if neg then -((h * 3600 + m * 60 : Nat) : Int) else ((h * 3600 + m * 60 : Nat) : Int)),
        pos + 6) := by
  have hfirstdig : (digitChar (h / 10 % 10)).isDigit = true := digitChar_isDigit _
  have hZ : parse_is_token s pos ['Z'] = (ParseResult.ok false, pos) :=
    @parse_is_token_no s ['Z'] [if neg then '-' else '+']
      (padNum 2 h ++ ':' :: (padNum 2 m ++ rest)) pos hpos (by simpa using hdrop) rfl
      (by cases neg <;> decide)
  have hdrop1 : s.drop (pos + 1) = padNum 2 h ++ ':' :: (padNum 2 m ++ rest) := by
    apply drop_chain (x := [if neg then '-' else '+'])
    · simpa using hdrop
    · rfl
  have hdropDig : s.drop (pos + 1) =
      [digitChar (h / 10 % 10)] ++ (digitChar (h % 10) :: (':' :: (padNum 2 m ++ rest))) := by
    rw [hdrop1, padNum_two]
    rfl
  have hpos1 : pos + 1 ≤ s.length := by
    have := length_ge_of_drop hpos (by simpa using hdrop :
      s.drop pos = [if neg then '-' else '+'] ++ (padNum 2 h ++ ':' :: (padNum 2 m ++ rest)))
    simp at this
    omega
  cases neg with
  | false =>
    have hplus : parse_is_token s pos ['+'] = (ParseResult.ok true, pos + 1) := by
      apply parse_is_token_yes hpos
      simpa using hdrop
    have hminus : parse_is_token s (pos + 1) ['-'] = (ParseResult.ok false, pos + 1) := by
      apply parse_is_token_no hpos1 hdropDig
      · rfl
      · intro hc
        have : digitChar (h / 10 % 10) = '-' := by
          have := congrArg List.head? hc
          simpa using this
        rw [this] at hfirstdig
        exact absurd hfirstdig (by decide)
    have hhour : parse_hour_timezone s (pos + 1) = (ParseResult.ok h, pos + 1 + 2) :=
      parse_hour_timezone_ok hpos1 hdrop1 hh
    have hdrop3 : s.drop (pos + 1 + 2) = [':'] ++ (padNum 2 m ++ rest) := by
      have := drop_chain hdrop1 (padNum_length 2 h)
      simpa using this
    have hpos3 : pos + 1 + 2 ≤ s.length := by
      have := length_ge_of_drop hpos1 hdrop1
      simp [padNum_length] at this
      omega
    have hcolon : parse_token s (pos + 1 + 2) [':'] = (ParseResult.ok (), pos + 1 + 2 + 1) :=
      parse_token_ok hpos3 hdrop3
    have hdrop4 : s.drop (pos + 1 + 2 + 1) = padNum 2 m ++ rest := by
      have := drop_chain hdrop3 (by rfl : ([':'] : List Char).length = 1)
      simpa using this
    have hpos4 : pos + 1 + 2 + 1 ≤ s.length := by
      have := length_ge_of_drop hpos3 hdrop3
      simp at this
      omega
    have hmin : parse_minute s (pos + 1 + 2 + 1) = (ParseResult.ok m, pos + 1 + 2 + 1 + 2) :=
      parse_minute_ok hpos4 hdrop4 hm
    simp only [parse_tzd, hZ, hplus, hminus, hhour, hcolon, hmin]
    rw [if_pos (Or.inl trivial)]
    simp only [Bool.false_eq_true, if_false, FixedOffset.east, Prod.mk.injEq,
      ParseResult.ok.injEq]
    constructor
    · push_cast
      ring
    · trivial
  | true =>
    have hplus : parse_is_token s pos ['+'] = (ParseResult.ok false, pos) :=
      @parse_is_token_no s ['+'] ['-'] (padNum 2 h ++ ':' :: (padNum 2 m ++ rest)) pos
        hpos (by simpa using hdrop) rfl (by decide)
    have hminus : parse_is_token s pos ['-'] = (ParseResult.ok true, pos + 1) := by
      apply parse_is_token_yes hpos
      simpa using hdrop
    have hhour : parse_hour_timezone s (pos + 1) = (ParseResult.ok h, pos + 1 + 2) :=
      parse_hour_timezone_ok hpos1 hdrop1 hh
    have hdrop3 : s.drop (pos + 1 + 2) = [':'] ++ (padNum 2 m ++ rest) := by
      have := drop_chain hdrop1 (padNum_length 2 h)
      simpa using this
    have hpos3 : pos + 1 + 2 ≤ s.length := by
      have := length_ge_of_drop hpos1 hdrop1
      simp [padNum_length] at this
      omega
    have hcolon : parse_token s (pos + 1 + 2) [':'] = (ParseResult.ok (), pos + 1 + 2 + 1) :=
      parse_token_ok hpos3 hdrop3
    have hdrop4 : s.drop (pos + 1 + 2 + 1) = padNum 2 m ++ rest := by
      have := drop_chain hdrop3 (by rfl : ([':'] : List Char).length = 1)
      simpa using this
    have hpos4 : pos + 1 + 2 + 1 ≤ s.length := by
      have := length_ge_of_drop hpos3 hdrop3
      simp at this
      omega
    have hmin : parse_minute s (pos + 1 + 2 + 1) = (ParseResult.ok m, pos + 1 + 2 + 1 + 2) :=
      parse_minute_ok hpos4 hdrop4 hm
    simp only [parse_tzd, hZ, hplus, hminus, hhour, hcolon, hmin]
    rw [if_pos (Or.inr trivial)]
    simp only [if_true, FixedOffset.west, Prod.mk.injEq, ParseResult.ok.injEq]
    constructor
    · push_cast
      ring
    · trivial

theorem parse_tzd_none {s rest : List Char} {pos : Nat} {c : Char}
    (hpos : pos ≤ s.length) (hdrop : s.drop pos = c :: rest)
    (hz : c ≠ 'Z') (hp : c ≠ '+') (hmn : c ≠ '-') :
    parse_tzd s pos = (ParseResult.error (ParseError.invalid_token pos 1), pos) := by
  have hZ := @parse_is_token_no s ['Z'] [c] rest pos hpos
    (show s.drop pos = [c] ++ rest by simpa using hdrop) rfl (by simp [hz])
  have hP := @parse_is_token_no s ['+'] [c] rest pos hpos
    (show s.drop pos = [c] ++ rest by simpa using hdrop) rfl (by simp [hp])
  have hM := @parse_is_token_no s ['-'] [c] rest pos hpos
    (show s.drop pos = [c] ++ rest by simpa using hdrop) rfl (by simp [hmn])
  simp only [parse_tzd, hZ, hP, hM]
  simp

theorem parse_hour_timezone_high {s rest : List Char} {pos v : Nat}
    (hpos : pos ≤ s.length) (hdrop : s.drop pos = padNum 2 v ++ rest)
    (h13 : 13 ≤ v) (h99 : v ≤ 99) :
    parse_hour_timezone s pos =
      (ParseResult.error (ParseError.invalid_high_value (pos + 2) 2), pos + 2) := by
  have hu := parse_u32_ok (k := ParseErrorKind.InvalidHour) hpos hdrop (padNum_length 2 v)
    (rustParseU32_padNum (by norm_num) (by norm_num; omega) (by omega))
  simp only [parse_hour_timezone, hu, validate_range]
  rw [if_neg (by omega), if_pos (by omega)]

theorem parse_minute_high {s rest : List Char} {pos v : Nat}
    (hpos : pos ≤ s.length) (hdrop : s.drop pos = padNum 2 v ++ rest)
    (h60 : 60 ≤ v) (h99 : v ≤ 99) :
    parse_minute s pos =
      (ParseResult.error (ParseError.invalid_high_value (pos + 2) 2), pos + 2) := by
  have hu := parse_u32_ok (k := ParseErrorKind.InvalidMinute) hpos hdrop (padNum_length 2 v)
    (rustParseU32_padNum (by norm_num) (by norm_num; omega) (by omega))
  simp only [parse_minute, hu, validate_range]
  rw [if_neg (by omega), if_pos (by omega)]

theorem parse_tzd_hour_high {s rest : List Char} {pos h : Nat}
    (hpos : pos ≤ s.length) (hdrop : s.drop pos = '+' :: (padNum 2 h ++ rest))
    (h13 : 13 ≤ h) (h99 : h ≤ 99) :
    parse_tzd s pos =
      (ParseResult.error (ParseError.invalid_high_value (pos + 3) 2), pos + 3) := by
  have hZ := @parse_is_token_no s ['Z'] ['+'] (padNum 2 h ++ rest) pos hpos
    (show s.drop pos = ['+'] ++ (padNum 2 h ++ rest) by simpa using hdrop) rfl (by simp)
  have hplus : parse_is_token s pos ['+'] = (ParseResult.ok true, pos + 1) :=
    parse_is_token_yes hpos (by simpa using hdrop)
  have hdrop1 : s.drop (pos + 1) = padNum 2 h ++ rest :=
    drop_chain (x := ['+']) (by simpa using hdrop) rfl
  have hpos1 : pos + 1 ≤ s.length := by
    have := length_ge_of_drop hpos
      (show s.drop pos = ['+'] ++ (padNum 2 h ++ rest) by simpa using hdrop)
    simp at this
    omega
  have hminus : parse_is_token s (pos + 1) ['-'] = (ParseResult.ok false, pos + 1) :=
    @parse_is_token_no s ['-'] [digitChar (h / 10 % 10)] (digitChar (h % 10) :: rest)
      (pos + 1) hpos1
      (by rw [hdrop1, padNum_two]; rfl) rfl
      (by
        intro hc
        have heq : digitChar (h / 10 % 10) = '-' := by
          have := congrArg List.head? hc
          simpa using this
        have := digitChar_isDigit (h / 10 % 10)
        rw [heq] at this
        exact absurd this (by decide))
  have hhour : parse_hour_timezone s (pos + 1) =
      (ParseResult.error (ParseError.invalid_high_value (pos + 1 + 2) 2), pos + 1 + 2) :=
    parse_hour_timezone_high hpos1 hdrop1 h13 h99
  simp only [parse_tzd, hZ, hplus, hminus, hhour]
  rw [if_pos (Or.inl trivial)]

theorem parse_tzd_minute_high {s rest : List Char} {pos h m : Nat}
    (hpos : pos ≤ s.length)
    (hdrop : s.drop pos = '+' :: (padNum 2 h ++ ':' :: (padNum 2 m ++ rest)))
    (hh : h ≤ 12) (h60 : 60 ≤ m) (h99 : m ≤ 99) :
    parse_tzd s pos =
      (ParseResult.error (ParseError.invalid_high_value (pos + 6) 2), pos + 6) := by
  have hZ := @parse_is_token_no s ['Z'] ['+'] (padNum 2 h ++ ':' :: (padNum 2 m ++ rest))
    pos hpos
    (show s.drop pos = ['+'] ++ (padNum 2 h ++ ':' :: (padNum 2 m ++ rest)) by
      simpa using hdrop) rfl (by simp)
  have hplus : parse_is_token s pos ['+'] = (ParseResult.ok true, pos + 1) :=
    parse_is_token_yes hpos (by simpa using hdrop)
  have hdrop1 : s.drop (pos + 1) = padNum 2 h ++ ':' :: (padNum 2 m ++ rest) :=
    drop_chain (x := ['+']) (by simpa using hdrop) rfl
  have hpos1 : pos + 1 ≤ s.length := by
    have := length_ge_of_drop hpos
      (show s.drop pos = ['+'] ++ (padNum 2 h ++ ':' :: (padNum 2 m ++ rest)) by
        simpa using hdrop)
    simp at this
    omega
  have hminus : parse_is_token s (pos + 1) ['-'] = (ParseResult.ok false, pos + 1) :=
    @parse_is_token_no s ['-'] [digitChar (h / 10 % 10)]
      (digitChar (h % 10) :: (':' :: (padNum 2 m ++ rest))) (pos + 1) hpos1
      (by rw [hdrop1, padNum_two]; rfl) rfl
      (by
        intro hc
        have heq : digitChar (h / 10 % 10) = '-' := by
          have := congrArg List.head? hc
          simpa using this
        have := digitChar_isDigit (h / 10 % 10)
        rw [heq] at this
        exact absurd this (by decide))
  have hhour : parse_hour_timezone s (pos + 1) = (ParseResult.ok h, pos + 1 + 2) :=
    parse_hour_timezone_ok hpos1 hdrop1 hh
  have hdrop3 : s.drop (pos + 1 + 2) = [':'] ++ (padNum 2 m ++ rest) := by
    have := drop_chain hdrop1 (padNum_length 2 h)
    simpa using this
  have hpos3 : pos + 1 + 2 ≤ s.length := by
    have := length_ge_of_drop hpos1 hdrop1
    simp [padNum_length] at this
    omega
  have hcolon : parse_token s (pos + 1 + 2) [':'] = (ParseResult.ok (), pos + 1 + 2 + 1) :=
    parse_token_ok hpos3 hdrop3
  have hdrop4 : s.drop (pos + 1 + 2 + 1) = padNum 2 m ++ rest := by
    have := drop_chain hdrop3 (by rfl : ([':'] : List Char).length = 1)
    simpa using this
  have hpos4 : pos + 1 + 2 + 1 ≤ s.length := by
    have := length_ge_of_drop hpos3 hdrop3
    simp at this
    omega
  have hmin : parse_minute s (pos + 1 + 2 + 1) =
      (ParseResult.error (ParseError.invalid_high_value (pos + 1 + 2 + 1 + 2) 2),
        pos + 1 + 2 + 1 + 2) :=
    parse_minute_high hpos4 hdrop4 h60 h99
  simp only [parse_tzd, hZ, hplus, hminus, hhour, hcolon, hmin]
  rw [if_pos (Or.inl trivial)]

/-! ## Calendar arithmetic -/

theorem daysInMonth_ge {y : Int} {m : Nat} (h1 : 1 ≤ m) (h2 : m ≤ 12) :
    28 ≤ daysInMonth y m := by
  interval_cases m <;> simp [daysInMonth] <;> split <;> omega

theorem daysInMonth_twelve (y : Int) : daysInMonth y 12 = 31 := rfl

theorem dateSucc_valid {d d2 : NaiveDate} (hv : d.valid) (h : dateSucc d = some d2) :
    d2.valid := by
  obtain ⟨y, m, dd⟩ := d
  unfold NaiveDate.valid at hv
  obtain ⟨hy1, hy2, hm1, hm2, hd1, hd2⟩ := hv
  simp only at hy1 hy2 hm1 hm2 hd1 hd2
  unfold dateSucc at h
  simp only at h
  unfold NaiveDate.valid
  split_ifs at h with h1 h2 h3
  · injection h with h
    subst h
    dsimp only
    exact ⟨hy1, hy2, hm1, hm2, by omega, by omega⟩
  · injection h with h
    subst h
    dsimp only
    have := daysInMonth_ge (y := y) (m := m + 1) (by omega) (by omega)
    exact ⟨hy1, hy2, by omega, by omega, by omega, by omega⟩
  · injection h with h
    subst h
    dsimp only
    have := daysInMonth_ge (y := y + 1) (m := 1) (by omega) (by omega)
    exact ⟨by omega, by omega, by omega, by omega, by omega, by omega⟩

theorem datePred_valid {d d2 : NaiveDate} (hv : d.valid) (h : datePred d = some d2) :
    d2.valid := by
  obtain ⟨y, m, dd⟩ := d
  unfold NaiveDate.valid at hv
  obtain ⟨hy1, hy2, hm1, hm2, hd1, hd2⟩ := hv
  simp only at hy1 hy2 hm1 hm2 hd1 hd2
  unfold datePred at h
  simp only at h
  unfold NaiveDate.valid
  split_ifs at h with h1 h2 h3
  · injection h with h
    subst h
    dsimp only
    exact ⟨hy1, hy2, hm1, hm2, by omega, by omega⟩
  · injection h with h
    subst h
    dsimp only
    have := daysInMonth_ge (y := y) (m := m - 1) (by omega) (by omega)
    exact ⟨hy1, hy2, by omega, by omega, by omega, le_refl _⟩
  · injection h with h
    subst h
    dsimp only
    refine ⟨by omega, by omega, by omega, by omega, by omega, ?_⟩
    rw [daysInMonth_twelve]

theorem datePred_dateSucc {d d2 : NaiveDate} (hv : d.valid) (h : dateSucc d = some d2) :
    datePred d2 = some d := by
  obtain ⟨y, m, dd⟩ := d
  unfold NaiveDate.valid at hv
  obtain ⟨hy1, hy2, hm1, hm2, hd1, hd2⟩ := hv
  simp only at hy1 hy2 hm1 hm2 hd1 hd2
  unfold dateSucc at h
  simp only at h
  split_ifs at h with h1 h2 h3
  · injection h with h
    subst h
    unfold datePred
    dsimp only
    rw [if_pos (by omega)]
    have e : dd + 1 - 1 = dd := by omega
    rw [e]
  · injection h with h
    subst h
    unfold datePred
    dsimp only
    rw [if_neg (by omega), if_pos (by omega)]
    have e1 : m + 1 - 1 = m := by omega
    have e2 : daysInMonth y m = dd := by omega
    rw [e1, e2]
  · injection h with h
    subst h
    unfold datePred
    dsimp only
    rw [if_neg (by omega), if_neg (by omega), if_pos (by omega)]
    have hm12 : m = 12 := by omega
    have hd31 : dd = 31 := by
      rw [hm12, daysInMonth_twelve] at hd2 h1
      omega
    have e1 : y + 1 - 1 = y := by omega
    rw [e1, hm12, hd31]

theorem dateSucc_datePred {d d2 : NaiveDate} (hv : d.valid) (h : datePred d = some d2) :
    dateSucc d2 = some d := by
  obtain ⟨y, m, dd⟩ := d
  unfold NaiveDate.valid at hv
  obtain ⟨hy1, hy2, hm1, hm2, hd1, hd2⟩ := hv
  simp only at hy1 hy2 hm1 hm2 hd1 hd2
  unfold datePred at h
  simp only at h
  split_ifs at h with h1 h2 h3
  · injection h with h
    subst h
    unfold dateSucc
    dsimp only
    rw [if_pos (by omega)]
    have e : dd - 1 + 1 = dd := by omega
    rw [e]
  · injection h with h
    subst h
    unfold dateSucc
    dsimp only
    rw [if_neg (by omega), if_pos (by omega)]
    have e1 : m - 1 + 1 = m := by omega
    have e2 : dd = 1 := by omega
    rw [e1, e2]
  · injection h with h
    subst h
    unfold dateSucc
    dsimp only
    rw [if_neg (by rw [daysInMonth_twelve]; omega), if_neg (by omega), if_pos (by omega)]
    have e1 : y - 1 + 1 = y := by omega
    have e2 : m = 1 := by omega
    have e3 : dd = 1 := by omega
    rw [e1, e2, e3]

theorem dateSuccIter_one (d : NaiveDate) : dateSuccIter d 1 = dateSucc d := by
  cases hp : dateSucc d with
  | none => simp [dateSuccIter, hp]
  | some dd => simp [dateSuccIter, hp]

theorem datePredIter_one (d : NaiveDate) : datePredIter d 1 = datePred d := by
  cases hp : datePred d with
  | none => simp [datePredIter, hp]
  | some dd => simp [datePredIter, hp]

theorem addDays_zero (d : NaiveDate) : addDays d 0 = some d := by
  simp [addDays, dateSuccIter]

theorem addDays_one (d : NaiveDate) : addDays d 1 = dateSucc d := by
  rw [addDays, if_pos (by omega)]
  simpa using dateSuccIter_one d

theorem addDays_negOne (d : NaiveDate) : addDays d (-1) = datePred d := by
  rw [addDays, if_neg (by omega)]
  simpa using datePredIter_one d

theorem addSecondsOpt_roundtrip {x y : NaiveDateTime} {d : Int}
    (hdate : x.date.valid) (hh : x.time.hour ≤ 23) (hm : x.time.minute ≤ 59)
    (hs : x.time.second ≤ 59) (hd : d.natAbs < 86400)
    (h : addSecondsOpt x d = some y) : addSecondsOpt y (-d) = some x := by
  obtain ⟨xd, xt⟩ := x
  obtain ⟨xh, xmin, xsec, xnano⟩ := xt
  simp only at hh hm hs
  simp only [addSecondsOpt] at h
  cases had : addDays xd ((((xh * 3600 + xmin * 60 + xsec : Nat) : Int) + d) / 86400) with
  | none =>
    rw [had] at h
    exact absurd h (by simp)
  | some d2 =>
    rw [had] at h
    injection h with h
    subst h
    simp only [addSecondsOpt]
    have e1 : ((((xh * 3600 + xmin * 60 + xsec : Nat) : Int) + d) % 86400).toNat / 3600 * 3600 +
        ((((xh * 3600 + xmin * 60 + xsec : Nat) : Int) + d) % 86400).toNat % 3600 / 60 * 60 +
        ((((xh * 3600 + xmin * 60 + xsec : Nat) : Int) + d) % 86400).toNat % 60 =
        ((((xh * 3600 + xmin * 60 + xsec : Nat) : Int) + d) % 86400).toNat := by
      omega
    rw [e1]
    have e2 : ((((((xh * 3600 + xmin * 60 + xsec : Nat) : Int) + d) % 86400).toNat : Int) + -d) / 86400 =
        -((((xh * 3600 + xmin * 60 + xsec : Nat) : Int) + d) / 86400) := by
      omega
    rw [e2]
    have e3 : (((((((xh * 3600 + xmin * 60 + xsec : Nat) : Int) + d) % 86400).toNat : Int) + -d) %
        86400).toNat = xh * 3600 + xmin * 60 + xsec := by
      omega
    rw [e3]
    have hsh : (((xh * 3600 + xmin * 60 + xsec : Nat) : Int) + d) / 86400 = -1 ∨
        (((xh * 3600 + xmin * 60 + xsec : Nat) : Int) + d) / 86400 = 0 ∨
        (((xh * 3600 + xmin * 60 + xsec : Nat) : Int) + d) / 86400 = 1 := by
      omega
    have hback : addDays d2
        (-((((xh * 3600 + xmin * 60 + xsec : Nat) : Int) + d) / 86400)) = some xd := by
      rcases hsh with h0 | h0 | h0 <;> rw [h0] at had ⊢
      · rw [addDays_negOne] at had
        norm_num [addDays_one]
        exact dateSucc_datePred hdate had
      · rw [addDays_zero] at had
        injection had with had
        subst had
        norm_num [addDays_zero]
      · rw [addDays_one] at had
        norm_num [addDays_negOne]
        exact datePred_dateSucc hdate had
    rw [hback]
    have f1 : (xh * 3600 + xmin * 60 + xsec) / 3600 = xh := by omega
    have f2 : (xh * 3600 + xmin * 60 + xsec) % 3600 / 60 = xmin := by omega
    have f3 : (xh * 3600 + xmin * 60 + xsec) % 60 = xsec := by omega
    rw [f1, f2, f3]

/-! ## Scanning a canonical rendering -/

theorem drop_chain_cons {s rest : List Char} {pos : Nat} {c : Char}
    (h : s.drop pos = c :: rest) : s.drop (pos + 1) = rest :=
  drop_chain (x := [c]) (by simpa using h) rfl

theorem parse_token_ok1 {s rest : List Char} {pos : Nat} {c : Char}
    (hpos : pos ≤ s.length) (hdrop : s.drop pos = c :: rest) :
    parse_token s pos [c] = (ParseResult.ok (), pos + 1) :=
  parse_token_ok hpos (by simpa using hdrop)

theorem parse_token_or_end_yes1 {s rest : List Char} {pos : Nat} {c : Char}
    (hpos : pos ≤ s.length) (hdrop : s.drop pos = c :: rest) :
    parse_token_or_end s pos [c] = (ParseResult.ok true, pos + 1) :=
  parse_token_or_end_yes hpos (by simpa using hdrop)

theorem parse_is_token_yes1 {s rest : List Char} {pos : Nat} {c : Char}
    (hpos : pos ≤ s.length) (hdrop : s.drop pos = c :: rest) :
    parse_is_token s pos [c] = (ParseResult.ok true, pos + 1) :=
  parse_is_token_yes hpos (by simpa using hdrop)

theorem parse_is_token_no1 {s rest : List Char} {pos : Nat} {c c0 : Char}
    (hpos : pos ≤ s.length) (hdrop : s.drop pos = c0 :: rest) (hne : c0 ≠ c) :
    parse_is_token s pos [c] = (ParseResult.ok false, pos) :=
  @parse_is_token_no s [c] [c0] rest pos hpos (by simpa using hdrop) rfl (by simp [hne])

theorem renderOffset_head_not_digit (o : Option (Bool × Nat × Nat)) :
    ∀ c, (renderOffset o).head? = some c → c.isDigit = false := by
  rcases o with _ | ⟨neg, oh, om⟩
  · intro c hc
    simp [renderOffset] at hc
    rw [← hc]
    decide
  · intro c hc
    simp [renderOffset] at hc
    rw [← hc]
    cases neg <;> decide

/-- Scanning the canonical rendering of a claim-valid component tuple succeeds,
consumes the whole input, and produces exactly the tuple's fields. -/
theorem scan_render (c : CanonForm) (hv : c.validClaim) :
    scan_w3c_fields (renderCanon c) =
      ParseResult.ok (fieldsOfCanon c, (renderCanon c).length) := by
  obtain ⟨y, mo, dd, hh, mi, se, frac, off⟩ := c
  obtain ⟨hvy, hvm1, hvm2, hvd1, hvd2, hvh, hvmi, hvse, hvf, hvo⟩ := hv
  simp only at hvy hvm1 hvm2 hvd1 hvd2 hvh hvmi hvse hvf hvo
  set s : List Char := renderCanon ⟨y, mo, dd, hh, mi, se, frac, off⟩ with hs
  have hd0 : s.drop 0 = padNum 4 y ++ ('-' :: (padNum 2 mo ++ '-' :: (padNum 2 dd ++
      'T' :: (padNum 2 hh ++ ':' :: (padNum 2 mi ++ ':' :: (padNum 2 se ++
      (renderFrac frac ++ renderOffset off))))))) := by
    rw [List.drop_zero, hs]
    rfl
  have hslen : s.length = 19 + (renderFrac frac).length + (renderOffset off).length := by
    rw [hs]
    simp [renderCanon, padNum_length]
    omega
  have hp0 : (0 : Nat) ≤ s.length := by omega
  have h1 := parse_full_year_ok hp0 hd0 hvy
  have hd1 := drop_chain hd0 (padNum_length 4 y)
  have hp1 : 0 + 4 ≤ s.length := by omega
  have h2 := parse_token_ok1 hp1 hd1
  have hd2 := drop_chain_cons hd1
  have hp2 : 0 + 4 + 1 ≤ s.length := by omega
  have h3 := parse_month_number_ok hp2 hd2 hvm1 hvm2
  have hd3 := drop_chain hd2 (padNum_length 2 mo)
  have hp3 : 0 + 4 + 1 + 2 ≤ s.length := by omega
  have h4 := parse_token_ok1 hp3 hd3
  have hd4 := drop_chain_cons hd3
  have hp4 : 0 + 4 + 1 + 2 + 1 ≤ s.length := by omega
  have h5 := parse_day_number_ok hp4 hd4 hvd1 hvd2
  have hd5 := drop_chain hd4 (padNum_length 2 dd)
  have hp5 : 0 + 4 + 1 + 2 + 1 + 2 ≤ s.length := by omega
  have h6 := parse_token_or_end_yes1 hp5 hd5
  have hd6 := drop_chain_cons hd5
  have hp6 : 0 + 4 + 1 + 2 + 1 + 2 + 1 ≤ s.length := by omega
  have h7 := parse_hour_24_ok hp6 hd6 hvh
  have hd7 := drop_chain hd6 (padNum_length 2 hh)
  have hp7 : 0 + 4 + 1 + 2 + 1 + 2 + 1 + 2 ≤ s.length := by omega
  have h8 := parse_token_ok1 hp7 hd7
  have hd8 := drop_chain_cons hd7
  have hp8 : 0 + 4 + 1 + 2 + 1 + 2 + 1 + 2 + 1 ≤ s.length := by omega
  have h9 := parse_minute_ok hp8 hd8 hvmi
  have hd9 := drop_chain hd8 (padNum_length 2 mi)
  have hp9 : 0 + 4 + 1 + 2 + 1 + 2 + 1 + 2 + 1 + 2 ≤ s.length := by omega
  have h10 := parse_is_token_yes1 hp9 hd9
  have hd10 := drop_chain_cons hd9
  have hp10 : 0 + 4 + 1 + 2 + 1 + 2 + 1 + 2 + 1 + 2 + 1 ≤ s.length := by omega
  have h11 := parse_seconds_ok hp10 hd10 hvse
  have hd11 := drop_chain hd10 (padNum_length 2 se)
  have hp11 : 0 + 4 + 1 + 2 + 1 + 2 + 1 + 2 + 1 + 2 + 1 + 2 ≤ s.length := by omega
  rcases frac with _ | ⟨n, v⟩
  · -- no fractional part
    simp only [renderFrac, List.nil_append] at hd11 hslen
    rcases off with _ | ⟨neg, oh, om⟩
    · -- "Z" designator
      simp only [renderOffset] at hd11 hslen
      have h12 := parse_is_token_no1 (c := '.') hp11 hd11 (by decide)
      have h13 := parse_tzd_z hp11 hd11
      simp only [scan_w3c_fields, tryStep, eq_self_iff_true, if_true,
        Bool.false_eq_true, if_false, h1, h2, h3, h4, h5, h6, h7, h8, h9, h10, h11,
        h12, h13]
      simp only [fieldsOfCanon, nanoOfCanon, offsetSecsOfCanon]
      rw [hslen]
      simp only [List.length_cons, List.length_append, List.length_singleton,
        List.length_nil, padNum_length]
      all_goals congr 2
      all_goals omega
    · -- explicit signed offset
      simp only [renderOffset] at hd11 hslen
      simp only [offsetOkClaim, decide_eq_true_eq] at hvo
      obtain ⟨hoh, hom, _⟩ := hvo
      have h12 := parse_is_token_no1 (c := '.') hp11 hd11 (by cases neg <;> decide)
      have h13 := parse_tzd_sign neg hp11 (by simpa using hd11) hoh hom
      simp only [scan_w3c_fields, tryStep, eq_self_iff_true, if_true,
        Bool.false_eq_true, if_false, h1, h2, h3, h4, h5, h6, h7, h8, h9, h10, h11,
        h12, h13]
      simp only [fieldsOfCanon, nanoOfCanon, offsetSecsOfCanon]
      rw [hslen]
      simp only [List.length_cons, List.length_append, List.length_singleton,
        List.length_nil, padNum_length]
      all_goals congr 2
      all_goals omega
  · -- fractional part present
    simp only [fracOkClaim, decide_eq_true_eq] at hvf
    obtain ⟨hn1, hn9, hv0, hvlt⟩ := hvf
    simp only [renderFrac, List.cons_append] at hd11 hslen
    have h12 := parse_is_token_yes1 hp11 hd11
    have hd12 := drop_chain_cons hd11
    have hp12 : 0 + 4 + 1 + 2 + 1 + 2 + 1 + 2 + 1 + 2 + 1 + 2 + 1 ≤ s.length := by
      have := length_ge_of_drop hp11 (show s.drop (0 + 4 + 1 + 2 + 1 + 2 + 1 + 2 + 1 + 2 + 1 + 2) =
        ['.'] ++ (padNum n v ++ renderOffset off) by simpa using hd11)
      simp at this
      omega
    have h13 := parse_nanosecond_ok hp12 hd12 (renderOffset_head_not_digit off) hn1 hn9 hvlt
    have hd13 := drop_chain hd12 (padNum_length n v)
    have hp13 : 0 + 4 + 1 + 2 + 1 + 2 + 1 + 2 + 1 + 2 + 1 + 2 + 1 + n ≤ s.length := by
      have := length_ge_of_drop hp12 hd12
      simp [padNum_length] at this
      omega
    rcases off with _ | ⟨neg, oh, om⟩
    · -- "Z" designator
      simp only [renderOffset] at hd13 hslen
      have h14 := parse_tzd_z hp13 hd13
      simp only [scan_w3c_fields, tryStep, eq_self_iff_true, if_true,
        Bool.false_eq_true, if_false, h1, h2, h3, h4, h5, h6, h7, h8, h9, h10, h11,
        h12, h13, h14]
      simp only [fieldsOfCanon, nanoOfCanon, offsetSecsOfCanon]
      rw [hslen]
      simp only [List.length_cons, List.length_append, List.length_singleton,
        List.length_nil, padNum_length]
      all_goals congr 2
      all_goals omega
    · -- explicit signed offset
      simp only [renderOffset] at hd13 hslen
      simp only [offsetOkClaim, decide_eq_true_eq] at hvo
      obtain ⟨hoh, hom, _⟩ := hvo
      have h14 := parse_tzd_sign neg hp13 (by simpa using hd13) hoh hom
      simp only [scan_w3c_fields, tryStep, eq_self_iff_true, if_true,
        Bool.false_eq_true, if_false, h1, h2, h3, h4, h5, h6, h7, h8, h9, h10, h11,
        h12, h13, h14]
      simp only [fieldsOfCanon, nanoOfCanon, offsetSecsOfCanon]
      rw [hslen]
      simp only [List.length_cons, List.length_append, List.length_singleton,
        List.length_nil, padNum_length]
      all_goals congr 2
      all_goals omega

/-! ## Formatting the parsed value of a canonical rendering -/

theorem format_render (c : CanonForm) (hv : c.validClaim)
    (hf : fracOkAmended c.frac = true) (ndt : NaiveDateTime)
    (hloc : addSecondsOpt ndt (offsetSecsOfCanon c.offset) =
      some ⟨⟨(c.year : Int), c.month, c.day⟩,
            ⟨c.hour, c.minute, c.second, nanoOfCanon c.frac⟩⟩) :
    format_w3c ⟨ndt, offsetSecsOfCanon c.offset⟩ = renderCanon c := by
  obtain ⟨y, mo, dd, hh, mi, se, frac, off⟩ := c
  obtain ⟨hvy, hvm1, hvm2, hvd1, hvd2, hvh, hvmi, hvse, hvf, hvo⟩ := hv
  simp only at hvy hvm1 hvm2 hvd1 hvd2 hvh hvmi hvse hvf hvo hf hloc
  simp only [format_w3c, hloc, Option.getD_some]
  have hyear : formatYear ((y : Int)) = padNum 4 y := by
    unfold formatYear
    rw [if_neg (by omega)]
    congr 1
  have hymdhms : formatYMDHMS ⟨⟨(y : Int), mo, dd⟩, ⟨hh, mi, se, nanoOfCanon frac⟩⟩ =
      padNum 4 y ++ '-' :: padNum 2 mo ++ '-' :: padNum 2 dd ++
        'T' :: padNum 2 hh ++ ':' :: padNum 2 mi ++ ':' :: padNum 2 se := by
    simp only [formatYMDHMS, hyear]
  rw [hymdhms]
  have hfracpart :
      (if (⟨⟨(y : Int), mo, dd⟩, ⟨hh, mi, se, nanoOfCanon frac⟩⟩ :
          NaiveDateTime).time.nanosecond > 0
        then fracFormat (⟨⟨(y : Int), mo, dd⟩, ⟨hh, mi, se, nanoOfCanon frac⟩⟩ :
          NaiveDateTime).time.nanosecond
        else []) = renderFrac frac := by
    rcases frac with _ | ⟨n, v⟩
    · simp [nanoOfCanon, renderFrac]
    · simp only [fracOkClaim, decide_eq_true_eq] at hvf
      obtain ⟨hn1, hn9, hv0, hvlt⟩ := hvf
      simp only [fracOkAmended, decide_eq_true_eq] at hf
      obtain ⟨hn369, hlast⟩ := hf
      simp only [nanoOfCanon, renderFrac]
      have hpow : 0 < 10 ^ (9 - n) := Nat.pos_pow_of_pos _ (by norm_num)
      rw [if_pos (Nat.mul_pos hv0 hpow)]
      rcases hn369 with rfl | rfl | rfl
      · rw [show (9 : Nat) - 3 = 6 from by norm_num,
          show (10 : Nat) ^ 6 = 1000000 from by norm_num]
        unfold fracFormat
        rw [if_pos (by omega)]
        congr 2
        omega
      · rw [show (9 : Nat) - 6 = 3 from by norm_num,
          show (10 : Nat) ^ 3 = 1000 from by norm_num]
        have hne : v % 1000 ≠ 0 := hlast (by norm_num)
        unfold fracFormat
        rw [if_neg (by omega), if_pos (by omega)]
        congr 2
        omega
      · rw [show (9 : Nat) - 9 = 0 from by norm_num, pow_zero, Nat.mul_one]
        have hne : v % 1000 ≠ 0 := hlast (by norm_num)
        unfold fracFormat
        rw [if_neg (by omega), if_neg (by omega)]
  rw [hfracpart]
  have hoffpart :
      (if offsetSecsOfCanon off = 0 then ['Z']
       else
         (if 0 ≤ offsetSecsOfCanon off then ['+'] else ['-']) ++
           padNum 2 ((offsetSecsOfCanon off).natAbs / 3600) ++
           ':' :: padNum 2 ((offsetSecsOfCanon off).natAbs % 3600 / 60)) =
      renderOffset off := by
    rcases off with _ | ⟨neg, oh, om⟩
    · simp [offsetSecsOfCanon, renderOffset]
    · simp only [offsetOkClaim, decide_eq_true_eq] at hvo
      obtain ⟨hoh, hom, hnz⟩ := hvo
      have hval : 0 < oh * 3600 + om * 60 := by
        rcases Nat.eq_zero_or_pos oh with h0 | h0
        · rcases Nat.eq_zero_or_pos om with h2 | h2
          · exact absurd ⟨h0, h2⟩ hnz
          · omega
        · omega
      cases neg with
      | false =>
        simp only [offsetSecsOfCanon, if_neg (Bool.false_ne_true), renderOffset]
        rw [if_neg (by omega), if_pos (by omega)]
        have habs : ((oh * 3600 + om * 60 : Nat) : Int).natAbs = oh * 3600 + om * 60 := by
          omega
        rw [habs]
        have e1 : (oh * 3600 + om * 60) / 3600 = oh := by omega
        have e2 : (oh * 3600 + om * 60) % 3600 / 60 = om := by omega
        rw [e1, e2]
        rfl
      | true =>
        simp only [offsetSecsOfCanon, if_pos rfl, if_true, renderOffset]
        rw [if_neg (by omega), if_neg (by omega)]
        have habs : (-((oh * 3600 + om * 60 : Nat) : Int)).natAbs = oh * 3600 + om * 60 := by
          omega
        rw [habs]
        have e1 : (oh * 3600 + om * 60) / 3600 = oh := by omega
        have e2 : (oh * 3600 + om * 60) % 3600 / 60 = om := by omega
        rw [e1, e2]
        rfl
  rw [hoffpart]
  simp [renderCanon, List.append_assoc]

theorem nanoOfCanon_lt {f : Option (Nat × Nat)} (h : fracOkClaim f = true) :
    nanoOfCanon f < 1000000000 := by
  rcases f with _ | ⟨n, v⟩
  · simp [nanoOfCanon]
  · simp only [fracOkClaim, decide_eq_true_eq] at h
    obtain ⟨h1, h9, h0, hlt⟩ := h
    simp only [nanoOfCanon]
    calc v * 10 ^ (9 - n) < 10 ^ n * 10 ^ (9 - n) :=
      mul_lt_mul_of_pos_right hlt (Nat.pos_pow_of_pos _ (by norm_num))
    _ = 10 ^ 9 := by
        rw [← pow_add]
        congr 1
        omega
    _ = 1000000000 := by norm_num

theorem offsetSecs_natAbs_lt {o : Option (Bool × Nat × Nat)} (h : offsetOkClaim o = true) :
    (offsetSecsOfCanon o).natAbs < 86400 := by
  rcases o with _ | ⟨neg, oh, om⟩
  · simp [offsetSecsOfCanon]
  · simp only [offsetOkClaim, decide_eq_true_eq] at h
    obtain ⟨hoh, hom, _⟩ := h
    simp only [offsetSecsOfCanon]
    cases neg <;> simp <;> omega

/-- C9 (amended): every amended-canonical input that parses successfully formats back
to exactly itself. -/
theorem c9_roundtrip_canonical : ∀ (X : List Char) (T : W3CDateTime),
    IsCanonicalAmended X → parse_w3c_datetime X = ParseResult.ok T →
    format_w3c T = X := by
  intro X T hcanon hparse
  obtain ⟨c, ⟨hvc, hfa⟩, rfl⟩ := hcanon
  have hscan := scan_render c hvc
  have hend : parse_end_of_string (renderCanon c) (renderCanon c).length =
      ParseResult.ok () := by
    unfold parse_end_of_string
    rw [if_pos rfl]
  simp only [parse_w3c_datetime, hscan, hend] at hparse
  obtain ⟨hvy, hvm1, hvm2, hvd1, hvd2, hvh, hvmi, hvse, hvf, hvo⟩ := hvc
  simp only [resolveFields, fieldsOfCanon] at hparse
  cases hd : NaiveDate.from_ymd_opt (c.year : Int) c.month c.day with
  | none =>
    rw [hd] at hparse
    exact absurd hparse (by simp)
  | some date =>
    rw [hd] at hparse
    unfold NaiveDate.from_ymd_opt at hd
    by_cases hvdate : NaiveDate.valid ⟨(c.year : Int), c.month, c.day⟩
    case neg =>
      rw [if_neg hvdate] at hd
      exact absurd hd (by simp)
    case pos =>
    rw [if_pos hvdate] at hd
    injection hd with hd
    subst hd
    have hnano := nanoOfCanon_lt hvf
    rw [NaiveTime.from_hms_nano_opt, if_pos ⟨hvh, hvmi, hvse, by omega⟩] at hparse
    dsimp only at hparse
    cases hcs : NaiveDateTime.checked_sub
        ⟨⟨(c.year : Int), c.month, c.day⟩, ⟨c.hour, c.minute, c.second, nanoOfCanon c.frac⟩⟩
        (offsetSecsOfCanon c.offset) with
    | none =>
      rw [hcs] at hparse
      exact absurd hparse (by simp)
    | some ndt =>
      rw [hcs] at hparse
      simp only [ParseResult.ok.injEq] at hparse
      subst hparse
      unfold NaiveDateTime.checked_sub at hcs
      have hloc : addSecondsOpt ndt (offsetSecsOfCanon c.offset) =
          some ⟨⟨(c.year : Int), c.month, c.day⟩,
                ⟨c.hour, c.minute, c.second, nanoOfCanon c.frac⟩⟩ := by
        have := addSecondsOpt_roundtrip (x := ⟨⟨(c.year : Int), c.month, c.day⟩,
            ⟨c.hour, c.minute, c.second, nanoOfCanon c.frac⟩⟩)
          (y := ndt) (d := -(offsetSecsOfCanon c.offset)) hvdate hvh hvmi hvse
          (by
            have := offsetSecs_natAbs_lt hvo
            omega)
          hcs
        simpa using this
      exact format_render c ⟨hvy, hvm1, hvm2, hvd1, hvd2, hvh, hvmi, hvse, hvf, hvo⟩
        hfa ndt hloc

/-! ## The claims -/

/-- C1: the claim says an out-of-range bounded field fails with a low/high-value error
over the scanned token's own span, and that "2015-01-20T25:35:20-08:00" fails with
value-too-high over character offsets 11 to 13.  The code does produce the
value-too-high kind, but `validate_range` receives the cursor already advanced past
the token, so the reported span is [13, 15) — the two characters after the hour token —
not the token's span [11, 13).  This theorem evaluates the parser at the claim's own
example input. -/
theorem c1_high_value_span_bug :
    parse_w3c_datetime ("2015-01-20T25:35:20-08:00".toList) =
      ParseResult.error ⟨ParseErrorKind.InvalidHighValue, 13, 15⟩ := by decide

/-- C2: the claim says every scan leaves the cursor unchanged on failure.  The code
violates this: when only the range check fails, the cursor stays advanced past the
token.  At "2015-13-04" the month scan is attempted at cursor 5 and fails, yet returns
cursor 7; the zone scan on "+13:00" is attempted at cursor 0, fails on the zone hour,
and returns cursor 3. -/
theorem c2_cursor_not_restored_bug :
    parse_month_number ("2015-13-04".toList) 5 =
      (ParseResult.error ⟨ParseErrorKind.InvalidHighValue, 7, 9⟩, 7) ∧
    parse_tzd ("+13:00".toList) 0 =
      (ParseResult.error ⟨ParseErrorKind.InvalidHighValue, 3, 5⟩, 3) := by decide

/-- C3: for a fractional-second digit run of length n with 1 ≤ n ≤ 9 and value v,
`parse_nanosecond` returns exactly v * 10 ^ (9 - n) and advances the cursor by n;
a run of zero digits or of more than 9 digits fails with the invalid-nanoseconds kind
over a span of exactly the run's length. -/
theorem c3_parse_nanosecond_spec : ∀ (s : List Char) (pos : Nat), pos ≤ s.length →
    (1 ≤ ((s.drop pos).takeWhile Char.isDigit).length →
      ((s.drop pos).takeWhile Char.isDigit).length ≤ 9 →
      parse_nanosecond s pos =
        (ParseResult.ok (digitsVal ((s.drop pos).takeWhile Char.isDigit) *
            10 ^ (9 - ((s.drop pos).takeWhile Char.isDigit).length)),
          pos + ((s.drop pos).takeWhile Char.isDigit).length)) ∧
    (((s.drop pos).takeWhile Char.isDigit).length = 0 ∨
        9 < ((s.drop pos).takeWhile Char.isDigit).length →
      parse_nanosecond s pos =
        (ParseResult.error ⟨ParseErrorKind.InvalidNanoseconds, pos,
          pos + ((s.drop pos).takeWhile Char.isDigit).length⟩, pos)) := by
  intro s pos hpos
  constructor
  · intro h1 h9
    have hdig : ∀ c ∈ (s.drop pos).takeWhile Char.isDigit, c.isDigit = true :=
      fun c hc => List.mem_takeWhile_imp hc
    have hne : (s.drop pos).takeWhile Char.isDigit ≠ [] := by
      intro he
      rw [he] at h1
      simp at h1
    have htake : ((s.drop pos).takeWhile Char.isDigit) =
        (s.drop pos).take ((s.drop pos).takeWhile Char.isDigit).length :=
      List.prefix_iff_eq_take.mp (List.takeWhile_prefix Char.isDigit)
    have hget : get_text s pos (pos + ((s.drop pos).takeWhile Char.isDigit).length) =
        (s.drop pos).takeWhile Char.isDigit := by
      unfold get_text
      rw [Nat.add_sub_cancel_left, ← htake]
    have hbound : digitsVal ((s.drop pos).takeWhile Char.isDigit) ≤ 4294967295 := by
      have hlt := digitsVal_lt _ hdig
      have hle : (10 : Nat) ^ ((s.drop pos).takeWhile Char.isDigit).length ≤ 10 ^ 9 :=
        pow_ten_le_pow_ten h9
      have : (10 : Nat) ^ 9 = 1000000000 := by norm_num
      omega
    have hru := rustParseU32_of_digits hne hdig hbound
    simp only [parse_nanosecond, if_pos hpos]
    rw [if_pos ⟨hpos, h1, h9⟩, hget, hru]
  · intro hbad
    simp only [parse_nanosecond, if_pos hpos]
    rw [if_neg (by omega)]
    rfl

/-- C3 witness: the three-digit run "452" scans to 452,000,000 nanoseconds and
advances the cursor by 3. -/
theorem c3_witness : parse_nanosecond ("452-".toList) 0 = (ParseResult.ok 452000000, 3) := by
  have h := (c3_parse_nanosecond_spec ("452-".toList) 0 (by decide)).1 (by decide) (by decide)
  rw [h]
  decide

/-- C4: the zone-designator scan returns offset 0 on the literal "Z"; after a '+' or
'-' sign it requires a two-digit hour at most 12, a ':', and a two-digit minute at
most 59, and returns sign × (hour·3600 + minute·60) seconds (an out-of-range hour or
minute fails with a value-too-high error); when neither "Z" nor a sign is present it
fails with a token error. -/
theorem c4_parse_tzd_spec : ∀ (s rest : List Char) (pos : Nat), pos ≤ s.length →
    (s.drop pos = 'Z' :: rest → parse_tzd s pos = (ParseResult.ok 0, pos + 1)) ∧
    (∀ (neg : Bool) (h m : Nat),
      s.drop pos = (if neg then '-' else '+') :: (padNum 2 h ++ ':' :: (padNum 2 m ++ rest)) →
      h ≤ 12 → m ≤ 59 →
      parse_tzd s pos =
        (ParseResult.ok (if neg then -((h * 3600 + m * 60 : Nat) : Int)
          else ((h * 3600 + m * 60 : Nat) : Int)), pos + 6)) ∧
    (∀ c : Char, s.drop pos = c :: rest → c ≠ 'Z' → c ≠ '+' → c ≠ '-' →
      parse_tzd s pos = (ParseResult.error (ParseError.invalid_token pos 1), pos)) ∧
    (∀ h : Nat, s.drop pos = '+' :: (padNum 2 h ++ rest) → 13 ≤ h → h ≤ 99 →
      parse_tzd s pos =
        (ParseResult.error (ParseError.invalid_high_value (pos + 3) 2), pos + 3)) ∧
    (∀ h m : Nat, s.drop pos = '+' :: (padNum 2 h ++ ':' :: (padNum 2 m ++ rest)) →
      h ≤ 12 → 60 ≤ m → m ≤ 99 →
      parse_tzd s pos =
        (ParseResult.error (ParseError.invalid_high_value (pos + 6) 2), pos + 6)) :=
  fun _ _ _ hpos =>
    ⟨fun hd => parse_tzd_z hpos hd,
     fun neg h m hd hh hm => parse_tzd_sign neg hpos hd hh hm,
     fun _ hd h1 h2 h3 => parse_tzd_none hpos hd h1 h2 h3,
     fun _ hd h13 h99 => parse_tzd_hour_high hpos hd h13 h99,
     fun _ _ hd hh h60 h99 => parse_tzd_minute_high hpos hd hh h60 h99⟩

/-- C4 witness: "+05:30" scans to an offset of 19800 seconds east. -/
theorem c4_witness : parse_tzd ("+05:30".toList) 0 = (ParseResult.ok 19800, 6) := by
  have h := (c4_parse_tzd_spec ("+05:30".toList) [] 0 (by decide)).2.1 false 5 30
    (by decide) (by decide) (by decide)
  rw [h]
  decide

/-- C5: at the time-of-day branch point, "2015-03-04" (no "T", end of input)
succeeds; "2015-03-04Z" (no "T", more input) fails with the invalid-token kind;
"2015-03-04T" ("T" but nothing after) fails with the invalid-hour kind. -/
theorem c5_branch_point :
    parse_w3c_datetime ("2015-03-04".toList) =
      ParseResult.ok ⟨⟨⟨2015, 3, 4⟩, ⟨0, 0, 0, 0⟩⟩, 0⟩ ∧
    parse_w3c_datetime ("2015-03-04Z".toList) =
      ParseResult.error ⟨ParseErrorKind.InvalidToken, 10, 11⟩ ∧
    parse_w3c_datetime ("2015-03-04T".toList) =
      ParseResult.error ⟨ParseErrorKind.InvalidHour, 11, 13⟩ := by decide

/-- C6: the bare date "2015-03-04" parses to a timestamp with hour, minute, second
and nanosecond all zero and UTC offset zero, and formatting it yields
"2015-03-04T00:00:00Z". -/
theorem c6_default_filling :
    parse_w3c_datetime ("2015-03-04".toList) =
      ParseResult.ok ⟨⟨⟨2015, 3, 4⟩, ⟨0, 0, 0, 0⟩⟩, 0⟩ ∧
    format_w3c ⟨⟨⟨2015, 3, 4⟩, ⟨0, 0, 0, 0⟩⟩, 0⟩ = "2015-03-04T00:00:00Z".toList := by
  decide

/-- C7: whenever all scans succeed over the whole input but the calendar resolution
step rejects the fields (calendar-invalid date or time, or overflowing offset
subtraction), the parse fails with a single invalid-format error spanning the entire
input, offsets 0 to the input's length. -/
theorem c7_resolution_invalid_format : ∀ (s : List Char) (f : ScannedFields) (p : Nat),
    scan_w3c_fields s = ParseResult.ok (f, p) →
    parse_end_of_string s p = ParseResult.ok () →
    resolveFields f = none →
    parse_w3c_datetime s = ParseResult.error (ParseError.invalid_format 0 s.length) := by
  intro s f p h1 h2 h3
  simp only [parse_w3c_datetime, h1, h2, h3]

/-- C7 witness: "2015-02-30T17:35:20-08:00" passes every scan but February 30 is
calendar-invalid, so the parse fails with invalid-format over [0, 25). -/
theorem c7_witness :
    parse_w3c_datetime ("2015-02-30T17:35:20-08:00".toList) =
      ParseResult.error ⟨ParseErrorKind.InvalidFormat, 0, 25⟩ := by
  have h := c7_resolution_invalid_format ("2015-02-30T17:35:20-08:00".toList)
    ⟨2015, 2, 30, 17, 35, 20, 0, -28800⟩ 25 (by decide) (by decide) (by decide)
  rw [h]
  decide

/-- C8: the end-of-input scan succeeds exactly when the cursor equals the input
length, and an input whose scans complete with a non-empty remainder fails with the
string-not-ended kind and an empty span at the cursor. -/
theorem c8_end_of_input : ∀ (s : List Char) (pos p : Nat) (f : ScannedFields),
    (parse_end_of_string s pos = ParseResult.ok () ↔ pos = s.length) ∧
    (scan_w3c_fields s = ParseResult.ok (f, p) → p ≠ s.length →
      parse_w3c_datetime s = ParseResult.error ⟨ParseErrorKind.StringNotEnded, p, p⟩) := by
  intro s pos p f
  constructor
  · constructor
    · intro h
      unfold parse_end_of_string at h
      by_cases he : s.length = pos
      · omega
      · rw [if_neg he] at h
        exact absurd h (by simp)
    · intro h
      unfold parse_end_of_string
      rw [if_pos (by omega)]
  · intro h1 h2
    have he : parse_end_of_string s p =
        ParseResult.error (ParseError.invalid ParseErrorKind.StringNotEnded p 0) := by
      unfold parse_end_of_string
      rw [if_neg (by omega)]
    simp only [parse_w3c_datetime, h1, he]
    rfl

/-- C8 witness: "2015-01-20T17:35:20.452-08:00s" scans completely to cursor 29 with
one character left, so the parse fails with string-not-ended and the empty span
[29, 29). -/
theorem c8_witness :
    parse_w3c_datetime ("2015-01-20T17:35:20.452-08:00s".toList) =
      ParseResult.error ⟨ParseErrorKind.StringNotEnded, 29, 29⟩ :=
  (c8_end_of_input ("2015-01-20T17:35:20.452-08:00s".toList) 0 29
    ⟨2015, 1, 20, 17, 35, 20, 452000000, -28800⟩).2 (by decide) (by decide)

/-- C9 counterexample: "2015-01-20T17:35:20.5-08:00" is canonical exactly as the
claim words it (zero-padded, seconds present, nonzero fraction, non-zero signed
offset), parses successfully, yet formats back with the fraction printed to
millisecond precision: "2015-01-20T17:35:20.500-08:00" ≠ the input. -/
theorem c9_counterexample :
    IsCanonicalClaim ("2015-01-20T17:35:20.5-08:00".toList) ∧
    parse_w3c_datetime ("2015-01-20T17:35:20.5-08:00".toList) =
      ParseResult.ok ⟨⟨⟨2015, 1, 21⟩, ⟨1, 35, 20, 500000000⟩⟩, -28800⟩ ∧
    format_w3c ⟨⟨⟨2015, 1, 21⟩, ⟨1, 35, 20, 500000000⟩⟩, -28800⟩ ≠
      "2015-01-20T17:35:20.5-08:00".toList :=
  ⟨⟨⟨2015, 1, 20, 17, 35, 20, some (1, 5), some (true, 8, 0)⟩, by decide, by decide⟩,
    by decide, by decide⟩

/-- C9 witness: "2015-03-04T15:34:45.008+05:00" is amended-canonical, parses, and
formats back to itself. -/
theorem c9_witness :
    format_w3c ⟨⟨⟨2015, 3, 4⟩, ⟨10, 34, 45, 8000000⟩⟩, 18000⟩ =
      "2015-03-04T15:34:45.008+05:00".toList :=
  c9_roundtrip_canonical ("2015-03-04T15:34:45.008+05:00".toList)
    ⟨⟨⟨2015, 3, 4⟩, ⟨10, 34, 45, 8000000⟩⟩, 18000⟩
    ⟨⟨2015, 3, 4, 15, 34, 45, some (3, 8), some (false, 5, 0)⟩, by decide, by decide⟩
    (by decide)

/-- C10: the fixed-width unsigned scan delegates to the language's integer parser,
which accepts a leading '+'; consequently "2015-+9-04" parses successfully as
year 2015, month 9, day 4. -/
theorem c10_plus_sign_accepted :
    parse_w3c_datetime ("2015-+9-04".toList) =
      ParseResult.ok ⟨⟨⟨2015, 9, 4⟩, ⟨0, 0, 0, 0⟩⟩, 0⟩ := by decide
